import Mathlib

/-!
Shallow embedding of the algorthmia backend (Go) and proofs about its
orchestrator, validators and algorithm bodies.

Sources embedded here:
  * `internal/types` (types.go): the data model (Algorithm, Parameter,
    ExecutionStep, AlgorithmExecution, ExecutionStatus, WebSocketMessage).
  * `internal/api` (handlers.go): `ExecuteAlgorithm` and
    `executeAlgorithmAsync`.
  * `internal/algorithms/registry.go`: registry as an association list.
  * `internal/algorithms/sorting/bubble_sort.go`: `Execute`,
    `ValidateParameters`, `generateRandomArray`.
  * `internal/algorithms/sorting/heap_sort.go`: `Execute`, `heapify`,
    `ValidateParameters`.
  * `internal/algorithms/searching/binary_search.go`: `Execute`,
    `ValidateParameters`.
  * the `ValidateParameters` bodies of the remaining registered algorithms
    (merge_sort.go, quick_sort.go, counting sort, linear_search.go, dfs, bfs,
    hash_lookup.go).

Modelling conventions:
  * Go dynamic values (`interface pointers`) occurring in parameter maps, step
    payloads and results are a tagged variant `GoVal`.
  * Go maps `map[string]interface` are association lists with `List.lookup`
    (first binding wins, mirroring single-binding Go maps).
  * Wall-clock fields (`Timestamp`, `StartTime`, `EndTime`) are omitted: they
    carry `time.Now()` readings, which the handler model takes as an explicit
    `nowUnixNano` argument where a claim depends on them (execution ids).
  * Go `for` loops become structural recursion on an explicit count of
    remaining iterations; the source's loop guard is kept verbatim, and every
    call site passes the exact iteration count of the corresponding Go loop,
    so the count never runs out before the guard turns false.
  * Go `int` loop counters that can go negative (`i--` loops, binary-search
    bounds) are `Int`; counters that stay non-negative are `Nat`.
-/

namespace Algorthmia

/-- A Go dynamic value (`interface` value) as it occurs in parameter maps,
step payloads and algorithm results: an int, a bool, a string, an `int` slice,
or `nil`. -/
inductive GoVal where
  | vInt (n : Int)
  | vBool (b : Bool)
  | vStr (s : String)
  | vIntArr (l : List Int)
  | vNull
deriving Repr, DecidableEq

/-- A Go `map[string]interface` value, as an association list. -/
abbrev Params := List (String × GoVal)

/-- Models the Go type assertion `parameters[key].(int)`: yields the value
only when the key is bound to a dynamic `int`; a missing key or a value of any
other dynamic type makes the assertion report `ok = false`. -/
def getIntParam (parameters : Params) (key : String) : Option Int :=
  match parameters.lookup key with
  | some (GoVal.vInt n) => some n
  | _ => none

/-- Models the Go type assertion `parameters[key].(bool)`. -/
def getBoolParam (parameters : Params) (key : String) : Option Bool :=
  match parameters.lookup key with
  | some (GoVal.vBool b) => some b
  | _ => none

/-- Models the Go type assertion `parameters[key].(string)`. -/
def getStrParam (parameters : Params) (key : String) : Option String :=
  match parameters.lookup key with
  | some (GoVal.vStr s) => some s
  | _ => none

/-- types.Parameter (types.go): one declared parameter of an algorithm. -/
structure Parameter where
  Name : String
  Type' : String
  Description : String
  Default : GoVal
  Min : Option Int := none
  Max : Option Int := none
  Required : Bool
deriving Repr, DecidableEq

/-- types.Algorithm (types.go): algorithm metadata. -/
structure Algorithm where
  ID : String
  Name : String
  Category : String
  Description : String
  BigO : String
  Parameters : List Parameter
deriving Repr, DecidableEq

/-- types.ExecutionStep (types.go); the `Timestamp` field (wall clock) is
omitted. -/
structure ExecutionStep where
  StepNumber : Int
  Action : String
  Data : List (String × GoVal)
  Message : String
deriving Repr, DecidableEq

/-- types.ExecutionStatus (types.go). -/
inductive ExecutionStatus where
  | pending
  | running
  | paused
  | completed
  | error
  | cancelled
deriving Repr, DecidableEq

/-- The value returned by an algorithm's `Execute` (a Go `interface` value):
either an `int` slice or a `map[string]interface`. -/
inductive GoOutput where
  | intArr (l : List Int)
  | strMap (fields : List (String × GoVal))
deriving Repr, DecidableEq

/-- The observable behaviour of one `Execute` call: the steps handed to the
step callback, in emission order, and the `(output, error)` return value
(`Except.error` is a non-nil Go `error`; its payload is the error message). -/
structure ExecResult where
  steps : List ExecutionStep
  result : Except String GoOutput

/-- types.AlgorithmExecutor (types.go): the interface every algorithm
implements. -/
structure AlgorithmExecutor where
  GetMetadata : Algorithm
  Execute : Option GoVal → Params → ExecResult
  ValidateParameters : Params → Option String

/-- Models `func intPtr(i int) *int` (bubble_sort.go and siblings). -/
def intPtr (i : Int) : Option Int := some i

/-- Exchanges `arr i` and `arr j` the way the Go parallel assignment
`arr[i], arr[j] = arr[j], arr[i]` does: both right-hand sides are read first,
then the two positions are written. -/
def swapAssign (arr : List Int) (i j : Nat) : List Int :=
  let vj := arr.getD j 0
  let vi := arr.getD i 0
  (arr.set i vj).set j vi

/-- The index-filling loop of `generateRandomArray` (bubble_sort.go lines
206-209): `for i := 0; i < size; i++ { arr[i] = i + 1 }`. The first `Nat`
argument counts the remaining iterations (`size - i`). -/
def fillLoop (size : Nat) : Nat → Nat → List Int → List Int
  | 0, _, arr => arr
  | count + 1, i, arr =>
    if i < size then fillLoop size count (i + 1) (arr.set i ((i : Int) + 1))
    else arr

/-- The shuffle loop of `generateRandomArray` (bubble_sort.go lines 211-215):
`for i := len(arr) - 1; i > 0; i-- { j := i % (i+1); swap }`. The first `Nat`
argument counts the remaining iterations (`i`, run while `i > 0`). -/
def shuffleLoop : Nat → Int → List Int → List Int
  | 0, _, arr => arr
  | count + 1, i, arr =>
    if i > 0 then
      let j := i % (i + 1)
      shuffleLoop count (i - 1) (swapAssign arr i.toNat j.toNat)
    else arr

/-- generateRandomArray (bubble_sort.go lines 204-218; the identical copy in
searching/linear_search.go lines 158-172 is `searching.generateRandomArray`
below): fills `arr` with `1 .. size` and then runs the self-swap shuffle
loop. A negative Go `size` would panic in `make` and cannot reach this
function through the handler (validation rejects out-of-range ints and the
defaults are positive), so the size is taken as `Nat`. -/
def generateRandomArray (size : Nat) : List Int :=
  let arr := fillLoop size size 0 (List.replicate size 0)
  shuffleLoop (size - 1) ((size : Int) - 1) arr

/-- The byte-for-byte identical copy of `generateRandomArray` in the
`searching` package (linear_search.go lines 158-172). -/
def searchingGenerateRandomArray (size : Nat) : List Int :=
  generateRandomArray size

/-- The array-selection prologue shared verbatim by the `Execute` bodies of
bubble_sort.go (lines 52-67), heap_sort.go, quick_sort.go, linear_search.go
and binary_search.go (lines 53-68): a provided input must be an `int` slice,
otherwise `generateRandomArray` runs on `array_size` (default 10). -/
def chooseArray (input : Option GoVal) (parameters : Params) :
    Except String (List Int) :=
  match input with
  | some (GoVal.vIntArr inputArr) => .ok inputArr
  | some _ => .error "invalid input type, expected []int"
  | none =>
    let arraySize := (getIntParam parameters "array_size").getD 10
    .ok (generateRandomArray arraySize.toNat)

namespace BubbleSort

/-- The metadata built by `NewBubbleSort` (bubble_sort.go lines 15-43). -/
def metadata : Algorithm :=
  { ID := "bubble_sort"
    Name := "Bubble Sort"
    Category := "sorting"
    Description := "A simple sorting algorithm that repeatedly steps through the list, compares adjacent elements and swaps them if they are in the wrong order."
    BigO := "Time: O(n²), Space: O(1)"
    Parameters :=
      [{ Name := "array_size", Type' := "int",
         Description := "Size of the array to sort", Default := .vInt 10,
         Min := intPtr 3, Max := intPtr 100, Required := true },
       { Name := "show_comparisons", Type' := "bool",
         Description := "Show comparison steps in visualization",
         Default := .vBool true, Required := false }] }

/-- BubbleSort.ValidateParameters (bubble_sort.go lines 195-202). -/
def ValidateParameters (parameters : Params) : Option String :=
  match getIntParam parameters "array_size" with
  | some arraySize =>
    if arraySize < 3 ∨ arraySize > 100 then
      some "array_size must be between 3 and 100"
    else none
  | none => none

end BubbleSort

namespace MergeSort

/-- MergeSort.ValidateParameters (merge_sort.go lines 214-221). -/
def ValidateParameters (parameters : Params) : Option String :=
  match getIntParam parameters "array_size" with
  | some arraySize =>
    if arraySize < 3 ∨ arraySize > 100 then
      some "array_size must be between 3 and 100"
    else none
  | none => none

end MergeSort

namespace QuickSort

/-- The metadata built by `NewQuickSort` (quick_sort.go lines 15-43). -/
def metadata : Algorithm :=
  { ID := "quick_sort"
    Name := "Quick Sort"
    Category := "sorting"
    Description := "A divide-and-conquer algorithm that picks a pivot element and partitions the array around the pivot."
    BigO := "Time: O(n log n) average, O(n²) worst case, Space: O(log n)"
    Parameters :=
      [{ Name := "array_size", Type' := "int",
         Description := "Size of the array to sort", Default := .vInt 10,
         Min := intPtr 3, Max := intPtr 100, Required := true },
       { Name := "pivot_strategy", Type' := "string",
         Description := "Pivot selection strategy",
         Default := .vStr "middle", Required := false }] }

/-- QuickSort.ValidateParameters (quick_sort.go lines 217-239): range check on
`array_size` and membership check on `pivot_strategy`. -/
def ValidateParameters (parameters : Params) : Option String :=
  match getIntParam parameters "array_size" with
  | some arraySize =>
    if arraySize < 3 ∨ arraySize > 100 then
      some "array_size must be between 3 and 100"
    else ValidateStrategy parameters
  | none => ValidateStrategy parameters
where
  /-- The second check of QuickSort.ValidateParameters (lines 224-236). -/
  ValidateStrategy (parameters : Params) : Option String :=
    match getStrParam parameters "pivot_strategy" with
    | some strategy =>
      if ["first", "last", "middle"].contains strategy then none
      else some "pivot_strategy must be one of: first, last, middle"
    | none => none

end QuickSort

namespace HeapSort

/-- The metadata built by `NewHeapSort` (heap_sort.go lines 15-43). -/
def metadata : Algorithm :=
  { ID := "heap_sort"
    Name := "Heap Sort"
    Category := "sorting"
    Description := "A comparison-based sorting algorithm that uses a binary heap data structure to sort elements."
    BigO := "Time: O(n log n), Space: O(1)"
    Parameters :=
      [{ Name := "array_size", Type' := "int",
         Description := "Size of the array to sort", Default := .vInt 10,
         Min := intPtr 3, Max := intPtr 100, Required := true },
       { Name := "show_heap_structure", Type' := "bool",
         Description := "Show heap structure visualization",
         Default := .vBool true, Required := false }] }

/-- HeapSort.ValidateParameters (heap_sort.go lines 204-211). -/
def ValidateParameters (parameters : Params) : Option String :=
  match getIntParam parameters "array_size" with
  | some arraySize =>
    if arraySize < 3 ∨ arraySize > 100 then
      some "array_size must be between 3 and 100"
    else none
  | none => none

/-- The "heapify_check" step (heap_sort.go lines 152-165). -/
def heapifyCheckStep (arr : List Int) (n i left right : Nat)
    (stepNumber : Int) : ExecutionStep :=
  { StepNumber := stepNumber
    Action := "heapify_check"
    Data := [("array", .vIntArr arr), ("parent", .vInt (i : Int)),
             ("left_child", .vInt (left : Int)),
             ("right_child", .vInt (right : Int)),
             ("parent_value", .vInt (arr.getD i 0)),
             ("heap_size", .vInt (n : Int))]
    Message := s!"Checking heap property at index {i}" }

/-- The "heapify_swap" step (heap_sort.go lines 183-195), built after the
swap. -/
def heapifySwapStep (arr : List Int) (i largest n : Nat)
    (stepNumber : Int) : ExecutionStep :=
  { StepNumber := stepNumber
    Action := "heapify_swap"
    Data := [("array", .vIntArr arr),
             ("swapped", .vIntArr [(i : Int), (largest : Int)]),
             ("parent", .vInt (i : Int)), ("largest", .vInt (largest : Int)),
             ("heap_size", .vInt (n : Int))]
    Message := s!"Swapped {arr.getD largest 0} and {arr.getD i 0} to maintain heap property" }

/-- The `largest` computation of HeapSort.heapify (heap_sort.go lines
147-176): the index of the larger of node `i` and its in-heap children. -/
def largestChild (arr : List Int) (n i : Nat) : Nat :=
  let left := 2 * i + 1
  let right := 2 * i + 2
  let largest := if left < n ∧ arr.getD left 0 > arr.getD i 0 then left else i
  if right < n ∧ arr.getD right 0 > arr.getD largest 0 then right else largest

/-- HeapSort.heapify (heap_sort.go lines 146-201): optionally emits a
"heapify_check" step, and when the largest of node `i` and its children is a
child, swaps it up (optionally emitting "heapify_swap") and recurses on that
child. The first argument counts remaining recursion depth; each call site
passes at least `n`, which suffices because the recursion target `largest`
strictly increases and stays below `n`. -/
def heapify (showHeapStructure : Bool) (stepNumber : Int) :
    Nat → Nat → Nat → List Int → List ExecutionStep →
    List Int × List ExecutionStep
  | fuel, n, i, arr, steps =>
    let left := 2 * i + 1
    let right := 2 * i + 2
    let steps :=
      if showHeapStructure then
        steps ++ [heapifyCheckStep arr n i left right stepNumber]
      else steps
    let largest := largestChild arr n i
    if largest ≠ i then
      let arr := swapAssign arr i largest
      let steps :=
        if showHeapStructure then
          steps ++ [heapifySwapStep arr i largest n stepNumber]
        else steps
      match fuel with
      | 0 => (arr, steps)
      | fuel + 1 => heapify showHeapStructure stepNumber fuel n largest arr steps
    else (arr, steps)

/-- The "extract_max" step (heap_sort.go lines 113-124), built after the root
was swapped to position `i`; `remaining` is the slice view `sortedArr[:i]`. -/
def extractMaxStep (arr : List Int) (i : Int) : ExecutionStep :=
  { StepNumber := -1
    Action := "extract_max"
    Data := [("array", .vIntArr arr),
             ("extracted", .vInt (arr.getD i.toNat 0)),
             ("heap_size", .vInt i),
             ("remaining", .vIntArr (arr.take i.toNat))]
    Message := s!"Extracted max element: {arr.getD i.toNat 0}" }

/-- The heap-building loop of HeapSort.Execute (heap_sort.go lines 104-106):
`for i := n/2 - 1; i >= 0; i--` heapifies with hard-coded step number 2. The
first argument counts remaining iterations (`i + 1`). -/
def buildHeapLoop (n : Nat) (showHeapStructure : Bool) :
    Nat → Int → List Int → List ExecutionStep →
    List Int × List ExecutionStep
  | 0, _, arr, steps => (arr, steps)
  | count + 1, i, arr, steps =>
    if i ≥ 0 then
      let r := heapify showHeapStructure 2 n n i.toNat arr steps
      buildHeapLoop n showHeapStructure count (i - 1) r.1 r.2
    else (arr, steps)

/-- The extraction loop of HeapSort.Execute (heap_sort.go lines 109-128):
`for i := n - 1; i > 0; i--` swaps the root to the end, emits "extract_max"
(step number -1) and re-heapifies the reduced heap with step number -1. The
first argument counts remaining iterations (`i`). -/
def extractLoop (showHeapStructure : Bool) :
    Nat → Int → List Int → List ExecutionStep →
    List Int × List ExecutionStep
  | 0, _, arr, steps => (arr, steps)
  | count + 1, i, arr, steps =>
    if i > 0 then
      let arr := swapAssign arr 0 i.toNat
      let steps := steps ++ [extractMaxStep arr i]
      let r := heapify showHeapStructure (-1) i.toNat i.toNat 0 arr steps
      extractLoop showHeapStructure count (i - 1) r.1 r.2
    else (arr, steps)

/-- The "initialize" step (heap_sort.go lines 75-84). -/
def initializeStep (arr : List Int) (showHeapStructure : Bool) :
    ExecutionStep :=
  { StepNumber := 0
    Action := "initialize"
    Data := [("array", .vIntArr arr),
             ("show_heap_structure", .vBool showHeapStructure)]
    Message := "Starting Heap Sort" }

/-- The "build_heap" step (heap_sort.go lines 93-102). -/
def buildHeapStep (arr : List Int) : ExecutionStep :=
  { StepNumber := 1
    Action := "build_heap"
    Data := [("array", .vIntArr arr), ("phase", .vStr "building")]
    Message := "Building max heap" }

/-- The "complete" step (heap_sort.go lines 131-140). -/
def completeStep (arr : List Int) : ExecutionStep :=
  { StepNumber := -1
    Action := "complete"
    Data := [("array", .vIntArr arr), ("sorted", .vBool true)]
    Message := "Heap Sort completed" }

/-- HeapSort.Execute (heap_sort.go lines 51-143): choose the working array,
read `show_heap_structure` (default true), emit "initialize", copy the array,
emit "build_heap", build the max heap, extract maxima one by one, emit
"complete" and return the sorted copy. -/
def Execute (input : Option GoVal) (parameters : Params) : ExecResult :=
  match chooseArray input parameters with
  | .error e => { steps := [], result := .error e }
  | .ok arr =>
    let showHeapStructure :=
      (getBoolParam parameters "show_heap_structure").getD true
    let steps := [initializeStep arr showHeapStructure]
    let sortedArr := arr
    let n := sortedArr.length
    let steps := steps ++ [buildHeapStep sortedArr]
    let r := buildHeapLoop n showHeapStructure (n / 2) ((n : Int) / 2 - 1)
      sortedArr steps
    let r := extractLoop showHeapStructure (n - 1) ((n : Int) - 1) r.1 r.2
    { steps := r.2 ++ [completeStep r.1], result := .ok (.intArr r.1) }

/-- The HeapSort executor registered in the registry. -/
def executor : AlgorithmExecutor :=
  { GetMetadata := metadata, Execute := Execute,
    ValidateParameters := ValidateParameters }

end HeapSort

namespace CountingSort

/-- CountingSort.ValidateParameters (counting sort, in merge_sort.go lines
439-455 of the concatenated sorting sources): checks `array_size` in 3..50 and
`max_value` in 5..100. -/
def ValidateParameters (parameters : Params) : Option String :=
  match getIntParam parameters "array_size" with
  | some arraySize =>
    if arraySize < 3 ∨ arraySize > 50 then
      some "array_size must be between 3 and 50"
    else ValidateMax parameters
  | none => ValidateMax parameters
where
  /-- The `max_value` check of CountingSort.ValidateParameters. -/
  ValidateMax (parameters : Params) : Option String :=
    match getIntParam parameters "max_value" with
    | some maxValue =>
      if maxValue < 5 ∨ maxValue > 100 then
        some "max_value must be between 5 and 100"
      else none
    | none => none

end CountingSort

namespace LinearSearch

/-- LinearSearch.ValidateParameters (linear_search.go lines 149-156). -/
def ValidateParameters (parameters : Params) : Option String :=
  match getIntParam parameters "array_size" with
  | some arraySize =>
    if arraySize < 3 ∨ arraySize > 100 then
      some "array_size must be between 3 and 100"
    else none
  | none => none

end LinearSearch

namespace BinarySearch

/-- The metadata built by `NewBinarySearch` (binary_search.go lines 16-44). -/
def metadata : Algorithm :=
  { ID := "binary_search"
    Name := "Binary Search"
    Category := "searching"
    Description := "A search algorithm that finds the position of a target value within a sorted array by repeatedly dividing the search interval in half."
    BigO := "Time: O(log n), Space: O(1)"
    Parameters :=
      [{ Name := "array_size", Type' := "int",
         Description := "Size of the array to search", Default := .vInt 10,
         Min := intPtr 3, Max := intPtr 100, Required := true },
       { Name := "target", Type' := "int",
         Description := "Value to search for", Default := .vInt 5,
         Required := true }] }

/-- BinarySearch.ValidateParameters (binary_search.go lines 193-200). -/
def ValidateParameters (parameters : Params) : Option String :=
  match getIntParam parameters "array_size" with
  | some arraySize =>
    if arraySize < 3 ∨ arraySize > 100 then
      some "array_size must be between 3 and 100"
    else none
  | none => none

/-- Models Go's `sort.Ints(arr)` (binary_search.go line 76): ascending
in-place sort. For integers the non-decreasing permutation of a slice is a
unique value, so any correct ascending sort denotes it; we use Mathlib's
structural `insertionSort` so that concrete runs compute. -/
def sortInts (arr : List Int) : List Int :=
  List.insertionSort (· ≤ ·) arr

/-- The "check_middle" step (binary_search.go lines 97-111). -/
def checkMiddleStep (arr : List Int) (target : Int) (left right mid : Int)
    (comparisons : Nat) : ExecutionStep :=
  { StepNumber := (comparisons : Int)
    Action := "check_middle"
    Data := [("array", .vIntArr arr), ("target", .vInt target),
             ("left", .vInt left), ("right", .vInt right), ("mid", .vInt mid),
             ("mid_value", .vInt (arr.getD mid.toNat 0)),
             ("comparisons", .vInt (comparisons : Int))]
    Message := s!"Checking middle element {arr.getD mid.toNat 0} at index {mid}" }

/-- The "found" step (binary_search.go lines 114-126). -/
def foundStep (arr : List Int) (target : Int) (mid : Int)
    (comparisons : Nat) : ExecutionStep :=
  { StepNumber := (comparisons : Int) + 1
    Action := "found"
    Data := [("array", .vIntArr arr), ("target", .vInt target),
             ("found_at", .vInt mid), ("value", .vInt (arr.getD mid.toNat 0)),
             ("comparisons", .vInt (comparisons : Int))]
    Message := s!"Target {target} found at index {mid} after {comparisons} comparisons" }

/-- The "search_right" step (binary_search.go lines 138-151), built after
`left` moved to `mid + 1`. -/
def searchRightStep (arr : List Int) (target : Int) (left right mid : Int)
    (comparisons : Nat) : ExecutionStep :=
  { StepNumber := (comparisons : Int) + 1
    Action := "search_right"
    Data := [("array", .vIntArr arr), ("target", .vInt target),
             ("left", .vInt left), ("right", .vInt right), ("mid", .vInt mid),
             ("comparisons", .vInt (comparisons : Int))]
    Message := s!"Target is greater than {arr.getD mid.toNat 0}, searching right half" }

/-- The "search_left" step (binary_search.go lines 154-167), built after
`right` moved to `mid - 1`. -/
def searchLeftStep (arr : List Int) (target : Int) (left right mid : Int)
    (comparisons : Nat) : ExecutionStep :=
  { StepNumber := (comparisons : Int) + 1
    Action := "search_left"
    Data := [("array", .vIntArr arr), ("target", .vInt target),
             ("left", .vInt left), ("right", .vInt right), ("mid", .vInt mid),
             ("comparisons", .vInt (comparisons : Int))]
    Message := s!"Target is less than {arr.getD mid.toNat 0}, searching left half" }

/-- The "not_found" step (binary_search.go lines 172-182). -/
def notFoundStep (arr : List Int) (target : Int) (comparisons : Nat) :
    ExecutionStep :=
  { StepNumber := (comparisons : Int) + 1
    Action := "not_found"
    Data := [("array", .vIntArr arr), ("target", .vInt target),
             ("comparisons", .vInt (comparisons : Int))]
    Message := s!"Target {target} not found after {comparisons} comparisons" }

/-- The result of the `for left <= right` loop of BinarySearch.Execute:
either the early `return` with the found-result map (line 128), or the
natural exit carrying the steps and the final `comparisons` count. -/
inductive SearchLoopExit where
  | found (steps : List ExecutionStep) (resultMap : List (String × GoVal))
  | notFound (steps : List ExecutionStep) (comparisons : Nat)
deriving Repr

/-- The `for left <= right` loop of BinarySearch.Execute (binary_search.go
lines 93-169). The first argument counts remaining iterations; every call
site passes at least the interval length `right - left + 1`, and since each
iteration shrinks the interval, the count never reaches 0 while the guard
still holds (`searchLoop_notFound` below relies on just that bound, and the
0-case mirrors the guard-false exit). -/
def searchLoop (arr : List Int) (target : Int) :
    Nat → Int → Int → Nat → List ExecutionStep → SearchLoopExit
  | 0, _, _, comparisons, steps => .notFound steps comparisons
  | count + 1, left, right, comparisons, steps =>
    if left ≤ right then
      let mid := left + (right - left) / 2
      let comparisons := comparisons + 1
      let steps := steps ++ [checkMiddleStep arr target left right mid comparisons]
      if arr.getD mid.toNat 0 = target then
        .found (steps ++ [foundStep arr target mid comparisons])
          [("found", .vBool true), ("index", .vInt mid),
           ("value", .vInt (arr.getD mid.toNat 0)),
           ("comparisons", .vInt (comparisons : Int))]
      else if arr.getD mid.toNat 0 < target then
        let left := mid + 1
        searchLoop arr target count left right comparisons
          (steps ++ [searchRightStep arr target left right mid comparisons])
      else
        let right := mid - 1
        searchLoop arr target count left right comparisons
          (steps ++ [searchLeftStep arr target left right mid comparisons])
    else .notFound steps comparisons

/-- The "initialize" step (binary_search.go lines 79-88). -/
def initializeStep (arr : List Int) (target : Int) : ExecutionStep :=
  { StepNumber := 0
    Action := "initialize"
    Data := [("array", .vIntArr arr), ("target", .vInt target)]
    Message := s!"Starting Binary Search for target: {target} in sorted array" }

/-- BinarySearch.Execute (binary_search.go lines 52-190): choose the working
array, read `target` (default 5), sort the array, emit the "initialize" step
and run the search loop; on natural loop exit emit the "not_found" step and
return the not-found result map. -/
def Execute (input : Option GoVal) (parameters : Params) : ExecResult :=
  match chooseArray input parameters with
  | .error e => { steps := [], result := .error e }
  | .ok arr0 =>
    let target := (getIntParam parameters "target").getD 5
    let arr := sortInts arr0
    let steps := [initializeStep arr target]
    match searchLoop arr target arr.length 0 ((arr.length : Int) - 1) 0 steps with
    | .found steps resultMap => { steps := steps, result := .ok (.strMap resultMap) }
    | .notFound steps comparisons =>
      { steps := steps ++ [notFoundStep arr target comparisons]
        result := .ok (.strMap
          [("found", .vBool false), ("index", .vInt (-1)), ("value", .vNull),
           ("comparisons", .vInt (comparisons : Int))]) }

/-- The BinarySearch executor registered in the registry. -/
def executor : AlgorithmExecutor :=
  { GetMetadata := metadata, Execute := Execute,
    ValidateParameters := ValidateParameters }

end BinarySearch

namespace BubbleSort

/-- The local state threaded through BubbleSort.Execute's loops
(bubble_sort.go lines 88-91): the working slice plus the `comparisons`,
`swaps` and `stepNumber` counters, together with the steps handed to the
callback so far (in emission order). -/
structure LoopState where
  arr : List Int
  comparisons : Nat
  swaps : Nat
  stepNumber : Nat
  steps : List ExecutionStep
deriving Repr

/-- The "compare" step (bubble_sort.go lines 115-129). -/
def compareStep (s : LoopState) (i j : Nat) : ExecutionStep :=
  { StepNumber := (s.stepNumber : Int)
    Action := "compare"
    Data := [("array", .vIntArr s.arr),
             ("comparing", .vIntArr [(j : Int), (j : Int) + 1]),
             ("values", .vIntArr [s.arr.getD j 0, s.arr.getD (j + 1) 0]),
             ("comparisons", .vInt (s.comparisons : Int)),
             ("swaps", .vInt (s.swaps : Int)),
             ("outer_index", .vInt (i : Int)),
             ("inner_index", .vInt (j : Int))]
    Message := s!"Comparing {s.arr.getD j 0} and {s.arr.getD (j + 1) 0}" }

/-- The "swap" step (bubble_sort.go lines 139-153), built after the swap. -/
def swapStep (s : LoopState) (i j : Nat) : ExecutionStep :=
  { StepNumber := (s.stepNumber : Int)
    Action := "swap"
    Data := [("array", .vIntArr s.arr),
             ("swapped", .vIntArr [(j : Int), (j : Int) + 1]),
             ("values", .vIntArr [s.arr.getD (j + 1) 0, s.arr.getD j 0]),
             ("comparisons", .vInt (s.comparisons : Int)),
             ("swaps", .vInt (s.swaps : Int)),
             ("outer_index", .vInt (i : Int)),
             ("inner_index", .vInt (j : Int))]
    Message := s!"Swapped {s.arr.getD (j + 1) 0} and {s.arr.getD j 0}" }

/-- The "outer_loop" step (bubble_sort.go lines 97-108). -/
def outerStep (s : LoopState) (i : Nat) : ExecutionStep :=
  { StepNumber := (s.stepNumber : Int)
    Action := "outer_loop"
    Data := [("array", .vIntArr s.arr),
             ("outer_index", .vInt (i : Int)),
             ("comparisons", .vInt (s.comparisons : Int)),
             ("swaps", .vInt (s.swaps : Int))]
    Message := s!"Outer loop iteration {i + 1}" }

/-- The "early_termination" step (bubble_sort.go lines 160-171). -/
def earlyTerminationStep (s : LoopState) (i : Nat) : ExecutionStep :=
  { StepNumber := (s.stepNumber : Int)
    Action := "early_termination"
    Data := [("array", .vIntArr s.arr),
             ("comparisons", .vInt (s.comparisons : Int)),
             ("swaps", .vInt (s.swaps : Int)),
             ("outer_index", .vInt (i : Int))]
    Message := "Array is sorted, terminating early" }

/-- The "initialize" step (bubble_sort.go lines 75-86). -/
def initializeStep (arr : List Int) (showComparisons : Bool) : ExecutionStep :=
  { StepNumber := 0
    Action := "initialize"
    Data := [("array", .vIntArr arr),
             ("comparisons", .vInt 0),
             ("swaps", .vInt 0),
             ("show_comparisons", .vBool showComparisons)]
    Message := "Starting Bubble Sort" }

/-- The "complete" step (bubble_sort.go lines 178-189). -/
def completeStep (s : LoopState) : ExecutionStep :=
  { StepNumber := (s.stepNumber : Int)
    Action := "complete"
    Data := [("array", .vIntArr s.arr),
             ("comparisons", .vInt (s.comparisons : Int)),
             ("swaps", .vInt (s.swaps : Int)),
             ("sorted", .vBool true)]
    Message := s!"Bubble Sort completed with {s.comparisons} comparisons and {s.swaps} swaps" }

/-- The inner `j`-loop of BubbleSort.Execute (bubble_sort.go lines 111-156):
`for j := 0; j < n-i-1; j++` counts a comparison, optionally emits a
"compare" step, and swaps (emitting a "swap" step) when `arr[j] > arr[j+1]`.
The first argument counts the remaining iterations (`n-i-1 - j`, so the count
reaches 0 exactly when the guard turns false). Returns the state and the
`swapped` flag. -/
def innerLoop (n i : Nat) (showComparisons : Bool) :
    Nat → Nat → LoopState → Bool → LoopState × Bool
  | 0, _, s, swapped => (s, swapped)
  | count + 1, j, s, swapped =>
    if j < n - i - 1 then
      let s := { s with comparisons := s.comparisons + 1 }
      let s :=
        if showComparisons then
          { s with steps := s.steps ++ [compareStep s i j],
                   stepNumber := s.stepNumber + 1 }
        else s
      if s.arr.getD j 0 > s.arr.getD (j + 1) 0 then
        let s := { s with arr := swapAssign s.arr j (j + 1),
                          swaps := s.swaps + 1 }
        let s := { s with steps := s.steps ++ [swapStep s i j],
                          stepNumber := s.stepNumber + 1 }
        innerLoop n i showComparisons count (j + 1) s true
      else
        innerLoop n i showComparisons count (j + 1) s swapped
    else (s, swapped)

/-- The state after the "outer_loop" emission at the top of an outer
iteration (bubble_sort.go lines 97-109): the step is appended and
`stepNumber` incremented. -/
def outerStepState (s : LoopState) (i : Nat) : LoopState :=
  { s with steps := s.steps ++ [outerStep s i],
           stepNumber := s.stepNumber + 1 }

/-- The state after the "early_termination" emission (bubble_sort.go lines
160-172). -/
def earlyTerminationState (s : LoopState) (i : Nat) : LoopState :=
  { s with steps := s.steps ++ [earlyTerminationStep s i],
           stepNumber := s.stepNumber + 1 }

/-- The outer `i`-loop of BubbleSort.Execute (bubble_sort.go lines 94-175):
emits an "outer_loop" step, runs the inner loop with `swapped := false`, and
breaks with an "early_termination" step when the pass made no swap. The first
argument counts the remaining iterations (`n-1 - i`). -/
def outerLoop (n : Nat) (showComparisons : Bool) :
    Nat → Nat → LoopState → LoopState
  | 0, _, s => s
  | count + 1, i, s =>
    if i < n - 1 then
      let s := outerStepState s i
      let r := innerLoop n i showComparisons (n - i - 1) 0 s false
      let s := r.1
      if !r.2 then earlyTerminationState s i
      else outerLoop n showComparisons count (i + 1) s
    else s

/-- BubbleSort.Execute (bubble_sort.go lines 51-192): choose the working
array, read `show_comparisons` (default true), emit the "initialize" step,
run the sort loops, emit the "complete" step, and return the (in-place
sorted) array. -/
def Execute (input : Option GoVal) (parameters : Params) : ExecResult :=
  match chooseArray input parameters with
  | .error e => { steps := [], result := .error e }
  | .ok arr =>
    let showComparisons := (getBoolParam parameters "show_comparisons").getD true
    let n := arr.length
    let s : LoopState :=
      { arr := arr, comparisons := 0, swaps := 0, stepNumber := 1,
        steps := [initializeStep arr showComparisons] }
    let s := outerLoop n showComparisons (n - 1) 0 s
    { steps := s.steps ++ [completeStep s], result := .ok (.intArr s.arr) }

/-- The BubbleSort executor registered in the registry. -/
def executor : AlgorithmExecutor :=
  { GetMetadata := metadata, Execute := Execute,
    ValidateParameters := ValidateParameters }

end BubbleSort

namespace DFS

/-- DFS.ValidateParameters (linear_search.go concatenation lines 370-377). -/
def ValidateParameters (parameters : Params) : Option String :=
  match getIntParam parameters "graph_size" with
  | some graphSize =>
    if graphSize < 3 ∨ graphSize > 20 then
      some "graph_size must be between 3 and 20"
    else none
  | none => none

end DFS

namespace BFS

/-- BFS.ValidateParameters (binary_search.go concatenation lines 393-400). -/
def ValidateParameters (parameters : Params) : Option String :=
  match getIntParam parameters "graph_size" with
  | some graphSize =>
    if graphSize < 3 ∨ graphSize > 20 then
      some "graph_size must be between 3 and 20"
    else none
  | none => none

end BFS

namespace HashLookup

/-- HashLookup.ValidateParameters (hash_lookup.go lines 174-181). -/
def ValidateParameters (parameters : Params) : Option String :=
  match getIntParam parameters "table_size" with
  | some tableSize =>
    if tableSize < 5 ∨ tableSize > 50 then
      some "table_size must be between 5 and 50"
    else none
  | none => none

end HashLookup

/-- The WebSocket message type constants (types.go lines 94-99). -/
def MessageTypeExecutionStep : String := "execution_step"

/-- types.MessageTypeExecutionComplete (types.go). -/
def MessageTypeExecutionComplete : String := "execution_complete"

/-- types.MessageTypeExecutionError (types.go). -/
def MessageTypeExecutionError : String := "execution_error"

/-- The payload (`Data` field) of a websocket message built by
`executeAlgorithmAsync`: a step for `execution_step` envelopes, or the
two literal `map[string]interface` payloads of the terminal envelopes
(handlers.go lines 139-149). -/
inductive MessagePayload where
  | step (s : ExecutionStep)
  | errorInfo (executionId : String) (error : String)
  | completeInfo (executionId : String) (output : GoOutput) (stepsCount : Nat)
deriving Repr, DecidableEq

/-- types.WebSocketMessage (types.go lines 84-88), before JSON marshalling;
the `Timestamp` field (wall clock) is omitted. -/
structure WebSocketMessage where
  Type' : String
  Data : MessagePayload
deriving Repr, DecidableEq

/-- True for the two terminal envelope types. -/
def WebSocketMessage.isTerminal (m : WebSocketMessage) : Bool :=
  m.Type' == MessageTypeExecutionComplete ||
  m.Type' == MessageTypeExecutionError

/-- types.AlgorithmExecution (types.go lines 43-53); the wall-clock
`StartTime`/`EndTime` fields are omitted. `Output` is `none` while unset or
when `Execute` returned a nil output. -/
structure AlgorithmExecution where
  ID : String
  AlgorithmID : String
  Parameters : Params
  Input : Option GoVal
  Output : Option GoOutput
  Steps : List ExecutionStep
  Status : ExecutionStatus
deriving Repr

/-- The observable behaviour of one `executeAlgorithmAsync` goroutine
(handlers.go lines 109-160): the execution context after the goroutine
finished, the ordered trace of assignments to `execution.Status` made after
the context was created, and the messages handed to `hub.Broadcast`, in
order. -/
structure AsyncResult where
  finalExecution : AlgorithmExecution
  statusWrites : List ExecutionStatus
  broadcasts : List WebSocketMessage

/-- executeAlgorithmAsync (handlers.go lines 109-160). The step callback
(lines 110-122) appends each step to `execution.Steps` and broadcasts an
`execution_step` envelope; after `Execute` returns, `execution.Status` is
assigned `StatusCompleted` unconditionally (line 127) and then reassigned
`StatusError` when `Execute` returned an error (line 137), the output is
recorded, and exactly one terminal envelope is broadcast. -/
def executeAlgorithmAsync (algorithm : AlgorithmExecutor)
    (execution : AlgorithmExecution) : AsyncResult :=
  let r := algorithm.Execute execution.Input execution.Parameters
  let stepMessages := r.steps.map fun step =>
    ({ Type' := MessageTypeExecutionStep, Data := .step step } : WebSocketMessage)
  let execution := { execution with Steps := execution.Steps ++ r.steps }
  let execution := { execution with Status := .completed }
  let execution := { execution with Output := r.result.toOption }
  match r.result with
  | .error err =>
    let execution := { execution with Status := .error }
    { finalExecution := execution
      statusWrites := [.completed, .error]
      broadcasts := stepMessages ++
        [{ Type' := MessageTypeExecutionError,
           Data := .errorInfo execution.ID err }] }
  | .ok output =>
    { finalExecution := execution
      statusWrites := [.completed]
      broadcasts := stepMessages ++
        [{ Type' := MessageTypeExecutionComplete,
           Data := .completeInfo execution.ID output execution.Steps.length }] }

/-- The algorithm registry (registry.go lines 11-14): a map from algorithm id
to executor, as an association list (first binding wins). The `sync.RWMutex`
serializing concurrent access is not modelled; every registry operation here
is one lock-protected critical section. -/
abbrev Registry := List (String × AlgorithmExecutor)

/-- Registry.RegisterAlgorithm (registry.go lines 29-35): binds
`algorithm.GetMetadata().ID` to the executor (a Go map assignment, so a new
binding shadows an older one for the same id). -/
def Registry.RegisterAlgorithm (r : Registry)
    (algorithm : AlgorithmExecutor) : Registry :=
  (algorithm.GetMetadata.ID, algorithm) :: r

/-- Registry.GetAlgorithm (registry.go lines 38-44): map lookup returning
`(algorithm, exists)`. -/
def Registry.GetAlgorithm (r : Registry) (id : String) :
    Option AlgorithmExecutor :=
  r.lookup id

/-- The ids of the ten algorithms registered by `registerAlgorithms`
(registry.go lines 76-92), via each constructor's metadata. -/
def registeredAlgorithmIds : List String :=
  ["bubble_sort", "merge_sort", "quick_sort", "heap_sort", "counting_sort",
   "linear_search", "binary_search", "dfs", "bfs", "hash_lookup"]

/-- The registry restricted to the three executors whose `Execute` bodies are
embedded in this development (bubble sort, heap sort, binary search); used to
instantiate registry-generic theorems on concrete runs. -/
def coreRegistry : Registry :=
  Registry.RegisterAlgorithm
    (Registry.RegisterAlgorithm
      (Registry.RegisterAlgorithm [] BubbleSort.executor)
      HeapSort.executor)
    BinarySearch.executor

/-- The decoded body of a `POST /algorithms/{id}/execute` request
(handlers.go lines 67-70). The JSON-decoding step itself (lines 72-75, `400`
on malformed bodies) is upstream of this model: a `Request` here is a body
that decoded successfully. -/
structure Request where
  Parameters : Params
  Input : Option GoVal

/-- The observable behaviour of one `ExecuteAlgorithm` handler call
(handlers.go lines 57-106) together with the goroutine it spawned, if any:
the HTTP status code and body written (`ErrorText` for `http.Error` plain
text responses, `ResponseBody` for the JSON success response), whether a
goroutine was spawned, the execution context it was given (in its final,
post-goroutine state), the goroutine's status-assignment trace, and the
messages the hub received. The response fields are computed before the
goroutine runs and do not depend on its outcome. -/
structure HandlerResult where
  StatusCode : Nat
  ErrorText : Option String
  ResponseBody : List (String × GoVal)
  Spawned : Bool
  Execution : Option AlgorithmExecution
  StatusWrites : List ExecutionStatus
  Broadcasts : List WebSocketMessage

/-- Handlers.ExecuteAlgorithm (handlers.go lines 57-106): look the algorithm
up (`404` when absent), validate the parameters (`400` with
`Invalid parameters: ...` when rejected), then create the execution id from
the current clock (`exec_%d` of `time.Now().UnixNano()`, line 84), create the
ExecutionContext with status Running, spawn `executeAlgorithmAsync`, and
respond 200 with `{execution_id, status: "started", message}`. -/
def ExecuteAlgorithm (registry : Registry) (algorithmID : String)
    (request : Request) (nowUnixNano : Int) : HandlerResult :=
  match registry.GetAlgorithm algorithmID with
  | none =>
    { StatusCode := 404, ErrorText := some "Algorithm not found",
      ResponseBody := [], Spawned := false, Execution := none,
      StatusWrites := [], Broadcasts := [] }
  | some algorithm =>
    match algorithm.ValidateParameters request.Parameters with
    | some err =>
      { StatusCode := 400,
        ErrorText := some ("Invalid parameters: " ++ err),
        ResponseBody := [], Spawned := false, Execution := none,
        StatusWrites := [], Broadcasts := [] }
    | none =>
      let executionID := "exec_" ++ toString nowUnixNano
      let execution : AlgorithmExecution :=
        { ID := executionID, AlgorithmID := algorithmID,
          Parameters := request.Parameters, Input := request.Input,
          Output := none, Steps := [], Status := .running }
      let async := executeAlgorithmAsync algorithm execution
      { StatusCode := 200, ErrorText := none,
        ResponseBody :=
          [("execution_id", .vStr executionID),
           ("status", .vStr "started"),
           ("message", .vStr "Algorithm execution started")],
        Spawned := true, Execution := some async.finalExecution,
        StatusWrites := async.statusWrites,
        Broadcasts := async.broadcasts }

/-- The step numbers carried by a step sequence, in emission order. -/
def stepNumbers (steps : List ExecutionStep) : List Int :=
  steps.map (·.StepNumber)

/-- Computable strict-increase check on an integer sequence. -/
def strictlyIncreasing : List Int → Bool
  | [] => true
  | [_] => true
  | a :: b :: rest => a < b && strictlyIncreasing (b :: rest)

/-- The ascending array `[1, 2, ..., n]`. -/
def ascendingArray (n : Nat) : List Int :=
  (List.range n).map fun k : Nat => (k : Int) + 1

/-- Written from the spec's words for the refinement claim C4: the terminal
envelope expected after `Execute` returns, an `execution_error` envelope
carrying the failure reason when `Execute` returned an error, otherwise an
`execution_complete` envelope carrying the output and the count of emitted
steps. Compared below with what `executeAlgorithmAsync` broadcasts. -/
def specTerminalEnvelope (execution : AlgorithmExecution) (r : ExecResult) :
    WebSocketMessage :=
  match r.result with
  | .error err =>
    { Type' := MessageTypeExecutionError,
      Data := .errorInfo execution.ID err }
  | .ok output =>
    { Type' := MessageTypeExecutionComplete,
      Data := .completeInfo execution.ID output
        (execution.Steps ++ r.steps).length }

end Algorthmia

namespace Algorthmia

/-! Helper lemmas about `swapAssign`, `List.set` and `List.getD`. -/

lemma length_swapAssign (arr : List Int) (i j : Nat) :
    (swapAssign arr i j).length = arr.length := by
  simp [swapAssign]

lemma set_getElem?_getD_self (l : List Int) (i : Nat) :
    l.set i (l[i]?.getD 0) = l := by
  induction l generalizing i with
  | nil => rfl
  | cons x xs ih =>
    cases i with
    | zero => simp
    | succ i => simp [ih]

lemma set_getD_self (l : List Int) (i : Nat) : l.set i (l.getD i 0) = l := by
  rw [List.getD_eq_getElem?_getD]
  exact set_getElem?_getD_self l i

lemma swapAssign_self (arr : List Int) (i : Nat) :
    swapAssign arr i i = arr := by
  simp only [swapAssign, List.set_set]
  exact set_getD_self arr i

lemma strictlyIncreasing_iff_chain' :
    ∀ l : List Int, strictlyIncreasing l = true ↔ List.Chain' (· < ·) l
  | [] => by simp [strictlyIncreasing]
  | [a] => by simp [strictlyIncreasing]
  | a :: b :: rest => by
    rw [List.chain'_cons, ← strictlyIncreasing_iff_chain' (b :: rest)]
    simp [strictlyIncreasing]

/-! C9: `generateRandomArray` produces the ascending array; its shuffle loop
is the identity. -/

lemma shuffleLoop_id : ∀ (count : Nat) (i : Int) (arr : List Int),
    shuffleLoop count i arr = arr
  | 0, _, _ => rfl
  | count + 1, i, arr => by
    unfold shuffleLoop
    by_cases h : i > 0
    · have hmod : i % (i + 1) = i :=
        Int.emod_eq_of_lt (le_of_lt h) (by omega)
      simp only [h, if_pos h, hmod]
      rw [swapAssign_self]
      exact shuffleLoop_id count (i - 1) arr
    · simp [h]

lemma take_set_self (l : List Int) (i : Nat) (v : Int) :
    (l.set i v).take i = l.take i := by
  induction l generalizing i with
  | nil => simp
  | cons x xs ih =>
    cases i with
    | zero => simp
    | succ i => simp [List.set, ih]

lemma take_succ_set (l : List Int) (i : Nat) (v : Int) (h : i < l.length) :
    (l.set i v).take (i + 1) = l.take i ++ [v] := by
  induction l generalizing i with
  | nil => simp at h
  | cons x xs ih =>
    cases i with
    | zero => simp
    | succ i =>
      simp only [List.set, List.take_succ_cons, List.cons_append]
      rw [ih i (by simpa using h)]

lemma fillLoop_spec (size : Nat) :
    ∀ (count i : Nat) (arr : List Int), arr.length = size →
      count = size - i →
      fillLoop size count i arr =
        arr.take i ++ (List.range' i count).map (fun k : Nat => (k : Int) + 1)
  | 0, i, arr, hlen, hcount => by
    have hi : size ≤ i := by omega
    simp [fillLoop, List.take_of_length_le, hlen, hi]
  | count + 1, i, arr, hlen, hcount => by
    have hi : i < size := by omega
    unfold fillLoop
    rw [if_pos hi]
    rw [fillLoop_spec size count (i + 1) (arr.set i ((i : Int) + 1))
      (by simpa using hlen) (by omega)]
    rw [take_succ_set arr i _ (by omega), List.range'_succ]
    simp

lemma generateRandomArray_eq (size : Nat) :
    generateRandomArray size = ascendingArray size := by
  unfold generateRandomArray
  rw [shuffleLoop_id]
  rw [fillLoop_spec size size 0 _ (by simp) (by simp)]
  simp [ascendingArray, List.range_eq_range']

lemma ascendingArray_sorted (n : Nat) :
    (ascendingArray n).Sorted (· ≤ ·) := by
  unfold ascendingArray List.Sorted
  rw [List.pairwise_map]
  exact (List.pairwise_lt_range n).imp (by intro a b h; omega)

/-- C9: for every size `n ≥ 1`, `generateRandomArray n` (and its identical
copy in the searching package) returns exactly the ascending array
`[1, 2, ..., n]`: the shuffle loop swaps every element with itself and is the
identity, so algorithms invoked without an explicit input operate on an
already-sorted array. -/
theorem C9_generateRandomArray_ascending (n : Nat) (_h : 1 ≤ n) :
    generateRandomArray n = ascendingArray n ∧
    searchingGenerateRandomArray n = ascendingArray n ∧
    (generateRandomArray n).Sorted (· ≤ ·) ∧
    (∀ (count : Nat) (i : Int) (arr : List Int), shuffleLoop count i arr = arr) :=
  ⟨generateRandomArray_eq n, generateRandomArray_eq n,
    (generateRandomArray_eq n).symm ▸ ascendingArray_sorted n,
    shuffleLoop_id⟩

/-- Witness for C9 at `n = 5`. -/
theorem C9_witness :
    1 ≤ 5 ∧ generateRandomArray 5 = ascendingArray 5 ∧
      generateRandomArray 5 = [1, 2, 3, 4, 5] :=
  ⟨by decide, (C9_generateRandomArray_ascending 5 (by decide)).1, by rfl⟩

/-! C10: every validator silently accepts absent or wrong-kind parameter
values, because each check is guarded by a type assertion that skips on
failure; the empty map always validates although parameters are Required. -/

/-- C10: whenever the type assertions for the declared parameter keys fail
(key absent, or value of the wrong dynamic kind), every registered
algorithm's ValidateParameters returns nil; in particular the empty parameter
map always validates, even though `array_size` (and its peers) are marked
Required in the metadata. -/
theorem C10_validators_skip_wrong_kind :
    (∀ parameters : Params,
      getIntParam parameters "array_size" = none →
      getStrParam parameters "pivot_strategy" = none →
      getIntParam parameters "graph_size" = none →
      getIntParam parameters "table_size" = none →
      getIntParam parameters "max_value" = none →
        BubbleSort.ValidateParameters parameters = none ∧
        MergeSort.ValidateParameters parameters = none ∧
        QuickSort.ValidateParameters parameters = none ∧
        HeapSort.ValidateParameters parameters = none ∧
        CountingSort.ValidateParameters parameters = none ∧
        LinearSearch.ValidateParameters parameters = none ∧
        BinarySearch.ValidateParameters parameters = none ∧
        DFS.ValidateParameters parameters = none ∧
        BFS.ValidateParameters parameters = none ∧
        HashLookup.ValidateParameters parameters = none) ∧
    (BubbleSort.ValidateParameters [] = none ∧
     MergeSort.ValidateParameters [] = none ∧
     QuickSort.ValidateParameters [] = none ∧
     HeapSort.ValidateParameters [] = none ∧
     CountingSort.ValidateParameters [] = none ∧
     LinearSearch.ValidateParameters [] = none ∧
     BinarySearch.ValidateParameters [] = none ∧
     DFS.ValidateParameters [] = none ∧
     BFS.ValidateParameters [] = none ∧
     HashLookup.ValidateParameters [] = none) ∧
    (BubbleSort.metadata.Parameters.any (·.Required) = true ∧
     QuickSort.metadata.Parameters.any (·.Required) = true ∧
     HeapSort.metadata.Parameters.any (·.Required) = true ∧
     BinarySearch.metadata.Parameters.any (·.Required) = true) := by
  refine ⟨fun parameters h1 h2 h3 h4 h5 => ?_, by decide, by decide⟩
  repeat' constructor
  · simp [BubbleSort.ValidateParameters, h1]
  · simp [MergeSort.ValidateParameters, h1]
  · simp [QuickSort.ValidateParameters, QuickSort.ValidateParameters.ValidateStrategy, h1, h2]
  · simp [HeapSort.ValidateParameters, h1]
  · simp [CountingSort.ValidateParameters, CountingSort.ValidateParameters.ValidateMax, h1, h5]
  · simp [LinearSearch.ValidateParameters, h1]
  · simp [BinarySearch.ValidateParameters, h1]
  · simp [DFS.ValidateParameters, h3]
  · simp [BFS.ValidateParameters, h3]
  · simp [HashLookup.ValidateParameters, h4]

/-- Witness for C10 on a map binding every declared key to a value of the
wrong dynamic kind. -/
theorem C10_witness :
    getIntParam [("array_size", GoVal.vStr "ten"), ("pivot_strategy", GoVal.vInt 3),
      ("graph_size", GoVal.vBool true), ("table_size", GoVal.vStr "five"),
      ("max_value", GoVal.vNull)] "array_size" = none ∧
    BubbleSort.ValidateParameters
      [("array_size", GoVal.vStr "ten"), ("pivot_strategy", GoVal.vInt 3),
       ("graph_size", GoVal.vBool true), ("table_size", GoVal.vStr "five"),
       ("max_value", GoVal.vNull)] = none ∧
    QuickSort.ValidateParameters
      [("array_size", GoVal.vStr "ten"), ("pivot_strategy", GoVal.vInt 3),
       ("graph_size", GoVal.vBool true), ("table_size", GoVal.vStr "five"),
       ("max_value", GoVal.vNull)] = none :=
  ⟨rfl,
    (C10_validators_skip_wrong_kind.1
      [("array_size", GoVal.vStr "ten"), ("pivot_strategy", GoVal.vInt 3),
       ("graph_size", GoVal.vBool true), ("table_size", GoVal.vStr "five"),
       ("max_value", GoVal.vNull)] rfl rfl rfl rfl rfl).1,
    (C10_validators_skip_wrong_kind.1
      [("array_size", GoVal.vStr "ten"), ("pivot_strategy", GoVal.vInt 3),
       ("graph_size", GoVal.vBool true), ("table_size", GoVal.vStr "five"),
       ("max_value", GoVal.vNull)] rfl rfl rfl rfl rfl).2.2.1⟩

/-! C7: an unknown algorithm id yields a 404 with no execution, no goroutine
and no broadcast. -/

/-- C7: for every registry, request and clock reading, when the algorithm id
is not registered the handler answers 404 ("Algorithm not found"), issues no
execution id (empty response body), creates no ExecutionContext, spawns no
goroutine and hands the hub no broadcast; and `unknown_algorithm` is not
among the ids registered by `registerAlgorithms`. -/
theorem C7_unknown_algorithm_404 :
    (∀ (registry : Registry) (algorithmID : String) (request : Request)
        (nowUnixNano : Int),
      registry.GetAlgorithm algorithmID = none →
        ExecuteAlgorithm registry algorithmID request nowUnixNano =
          { StatusCode := 404, ErrorText := some "Algorithm not found",
            ResponseBody := [], Spawned := false, Execution := none,
            StatusWrites := [], Broadcasts := [] }) ∧
    "unknown_algorithm" ∉ registeredAlgorithmIds := by
  refine ⟨fun registry algorithmID request now h => ?_, by decide⟩
  unfold ExecuteAlgorithm
  rw [h]

/-- Witness for C7: `unknown_algorithm` against the embedded registry. -/
theorem C7_witness :
    coreRegistry.GetAlgorithm "unknown_algorithm" = none ∧
    (ExecuteAlgorithm coreRegistry "unknown_algorithm" ⟨[], none⟩
        1700000000000000000).StatusCode = 404 ∧
    (ExecuteAlgorithm coreRegistry "unknown_algorithm" ⟨[], none⟩
        1700000000000000000).Broadcasts = [] := by
  refine ⟨rfl, ?_, ?_⟩ <;>
    rw [C7_unknown_algorithm_404.1 coreRegistry "unknown_algorithm" ⟨[], none⟩
      1700000000000000000 rfl]

/-! C2: the status-assignment trace of `executeAlgorithmAsync`. The claim
says the status is assigned a terminal value exactly once; on the error path
the code assigns `StatusCompleted` (line 127) and then `StatusError`
(line 137), i.e. twice. -/

/-- C2 counterexample: an execution whose `Execute` errors (wrong input type)
gets its status assigned twice after initialization - first `completed`,
then `error` - refuting "assigned ... exactly once". -/
theorem C2_counterexample :
    (executeAlgorithmAsync BubbleSort.executor
      { ID := "exec_1", AlgorithmID := "bubble_sort", Parameters := [],
        Input := some (GoVal.vStr "not a slice"), Output := none,
        Steps := [], Status := .running }).statusWrites =
      [ExecutionStatus.completed, ExecutionStatus.error] ∧
    (executeAlgorithmAsync BubbleSort.executor
      { ID := "exec_1", AlgorithmID := "bubble_sort", Parameters := [],
        Input := some (GoVal.vStr "not a slice"), Output := none,
        Steps := [], Status := .running }).statusWrites.length ≠ 1 :=
  ⟨rfl, by decide⟩

/-- C2 as amended: after initialization to Running, every value assigned to
the status is terminal and the last assigned value is the final status; on
success the status is assigned exactly once (`completed`), but on failure it
is assigned twice (`completed`, then `error`). -/
theorem C2_status_writes (algorithm : AlgorithmExecutor)
    (execution : AlgorithmExecution) :
    (∀ s ∈ (executeAlgorithmAsync algorithm execution).statusWrites,
      s = ExecutionStatus.completed ∨ s = ExecutionStatus.error) ∧
    (executeAlgorithmAsync algorithm execution).statusWrites.getLast? =
      some (executeAlgorithmAsync algorithm execution).finalExecution.Status ∧
    ((∃ o, (algorithm.Execute execution.Input execution.Parameters).result
        = .ok o) →
      (executeAlgorithmAsync algorithm execution).statusWrites =
        [ExecutionStatus.completed]) ∧
    (∀ e, (algorithm.Execute execution.Input execution.Parameters).result
        = .error e →
      (executeAlgorithmAsync algorithm execution).statusWrites =
        [ExecutionStatus.completed, ExecutionStatus.error]) := by
  unfold executeAlgorithmAsync
  cases h : (algorithm.Execute execution.Input execution.Parameters).result with
  | error err => simp [h]
  | ok output => simp [h]

/-- Witness for C2 as amended: a successful bubble-sort run writes exactly
`[completed]`. -/
theorem C2_witness :
    (executeAlgorithmAsync BubbleSort.executor
      { ID := "exec_2", AlgorithmID := "bubble_sort", Parameters := [],
        Input := some (GoVal.vIntArr [2, 1]), Output := none,
        Steps := [], Status := .running }).statusWrites =
      [ExecutionStatus.completed] :=
  (C2_status_writes BubbleSort.executor
    { ID := "exec_2", AlgorithmID := "bubble_sort", Parameters := [],
      Input := some (GoVal.vIntArr [2, 1]), Output := none,
      Steps := [], Status := .running }).2.2.1
    ⟨GoOutput.intArr [1, 2], rfl⟩

/-! C4: exactly one terminal envelope is broadcast, after all step envelopes,
and the HTTP response on the spawn path never carries an execution-time
failure. -/

lemma isTerminal_stepEnvelope (step : ExecutionStep) :
    WebSocketMessage.isTerminal
      { Type' := MessageTypeExecutionStep, Data := .step step } = false := rfl

lemma isTerminal_specTerminalEnvelope (execution : AlgorithmExecution)
    (r : ExecResult) :
    (specTerminalEnvelope execution r).isTerminal = true := by
  unfold specTerminalEnvelope
  cases r.result with
  | error err => rfl
  | ok output => rfl

lemma filter_isTerminal_stepEnvelopes (steps : List ExecutionStep) :
    (steps.map fun step =>
      ({ Type' := MessageTypeExecutionStep,
         Data := .step step } : WebSocketMessage)).filter
      WebSocketMessage.isTerminal = [] := by
  induction steps with
  | nil => rfl
  | cons s rest ih => simp [List.filter_cons, isTerminal_stepEnvelope, ih]

/-- C4: for every executor and execution context, the broadcasts of
`executeAlgorithmAsync` are the `execution_step` envelopes of the emitted
steps followed by exactly one terminal envelope - `execution_error` with the
failure reason when `Execute` returned an error, otherwise
`execution_complete` with the output and the step count; and on the spawn
path the HTTP response is always 200/"started", independent of the
execution's outcome, so an execution-time failure is never returned to the
original caller. -/
theorem C4_one_terminal_envelope (algorithm : AlgorithmExecutor)
    (execution : AlgorithmExecution) :
    ((executeAlgorithmAsync algorithm execution).broadcasts =
      ((algorithm.Execute execution.Input execution.Parameters).steps.map
        fun step =>
          ({ Type' := MessageTypeExecutionStep,
             Data := .step step } : WebSocketMessage)) ++
      [specTerminalEnvelope execution
        (algorithm.Execute execution.Input execution.Parameters)]) ∧
    ((executeAlgorithmAsync algorithm execution).broadcasts.filter
        WebSocketMessage.isTerminal =
      [specTerminalEnvelope execution
        (algorithm.Execute execution.Input execution.Parameters)]) ∧
    ((executeAlgorithmAsync algorithm execution).broadcasts.getLast? =
      some (specTerminalEnvelope execution
        (algorithm.Execute execution.Input execution.Parameters))) ∧
    (∀ (registry : Registry) (algorithmID : String) (request : Request)
        (nowUnixNano : Int) (alg : AlgorithmExecutor),
      registry.GetAlgorithm algorithmID = some alg →
      alg.ValidateParameters request.Parameters = none →
        (ExecuteAlgorithm registry algorithmID request nowUnixNano).StatusCode
            = 200 ∧
        (ExecuteAlgorithm registry algorithmID request nowUnixNano).ErrorText
            = none ∧
        (ExecuteAlgorithm registry algorithmID request
            nowUnixNano).ResponseBody.lookup "status"
            = some (GoVal.vStr "started")) := by
  have hmain : (executeAlgorithmAsync algorithm execution).broadcasts =
      ((algorithm.Execute execution.Input execution.Parameters).steps.map
        fun step =>
          ({ Type' := MessageTypeExecutionStep,
             Data := .step step } : WebSocketMessage)) ++
      [specTerminalEnvelope execution
        (algorithm.Execute execution.Input execution.Parameters)] := by
    unfold executeAlgorithmAsync specTerminalEnvelope
    cases h : (algorithm.Execute execution.Input execution.Parameters).result with
    | error err => simp [h]
    | ok output => simp [h]
  refine ⟨hmain, ?_, ?_, ?_⟩
  · rw [hmain, List.filter_append, filter_isTerminal_stepEnvelopes,
      List.filter_cons]
    simp [isTerminal_specTerminalEnvelope]
  · rw [hmain, List.getLast?_concat]
  · intro registry algorithmID request now alg h1 h2
    unfold ExecuteAlgorithm
    simp only [h1]
    rw [h2]
    refine ⟨rfl, rfl, rfl⟩

/-- Witness for C4: a concrete erroring run broadcasts exactly one
`execution_error` envelope last, and a concrete valid request is answered
200/"started". -/
theorem C4_witness :
    (executeAlgorithmAsync BubbleSort.executor
      { ID := "exec_3", AlgorithmID := "bubble_sort", Parameters := [],
        Input := some (GoVal.vBool true), Output := none,
        Steps := [], Status := .running }).broadcasts.getLast? =
      some (specTerminalEnvelope
        { ID := "exec_3", AlgorithmID := "bubble_sort", Parameters := [],
          Input := some (GoVal.vBool true), Output := none,
          Steps := [], Status := .running }
        (BubbleSort.executor.Execute (some (GoVal.vBool true)) [])) ∧
    (ExecuteAlgorithm coreRegistry "bubble_sort" ⟨[], none⟩ 5).StatusCode
        = 200 ∧
    (ExecuteAlgorithm coreRegistry "bubble_sort" ⟨[], none⟩ 5).ErrorText
        = none :=
  ⟨(C4_one_terminal_envelope BubbleSort.executor
      { ID := "exec_3", AlgorithmID := "bubble_sort", Parameters := [],
        Input := some (GoVal.vBool true), Output := none,
        Steps := [], Status := .running }).2.2.1,
    (C4_one_terminal_envelope BubbleSort.executor
      { ID := "exec_3", AlgorithmID := "bubble_sort", Parameters := [],
        Input := some (GoVal.vBool true), Output := none,
        Steps := [], Status := .running }).2.2.2 coreRegistry "bubble_sort"
      ⟨[], none⟩ 5 BubbleSort.executor rfl rfl |>.1,
    (C4_one_terminal_envelope BubbleSort.executor
      { ID := "exec_3", AlgorithmID := "bubble_sort", Parameters := [],
        Input := some (GoVal.vBool true), Output := none,
        Steps := [], Status := .running }).2.2.2 coreRegistry "bubble_sort"
      ⟨[], none⟩ 5 BubbleSort.executor rfl rfl |>.2.1⟩

/-! C1: execution ids are derived solely from the clock reading
(`exec_%d` of `time.Now().UnixNano()`, handlers.go line 84), so two requests
whose goroutines read the same nanosecond tick receive the same id. -/

/-- C1: two accepted execute requests (for different algorithms) whose
`time.Now().UnixNano()` readings coincide are both issued the identical
execution id `exec_1700000000000000000`: ids derived from the raw nanosecond
timestamp collide under bursty concurrent requests. -/
theorem C1_executionId_collision :
    (ExecuteAlgorithm coreRegistry "bubble_sort" ⟨[], none⟩
        1700000000000000000).ResponseBody.lookup "execution_id" =
      some (GoVal.vStr "exec_1700000000000000000") ∧
    (ExecuteAlgorithm coreRegistry "binary_search" ⟨[], none⟩
        1700000000000000000).ResponseBody.lookup "execution_id" =
      some (GoVal.vStr "exec_1700000000000000000") ∧
    (ExecuteAlgorithm coreRegistry "bubble_sort" ⟨[], none⟩
        1700000000000000000).Spawned = true ∧
    (ExecuteAlgorithm coreRegistry "binary_search" ⟨[], none⟩
        1700000000000000000).Spawned = true :=
  ⟨rfl, rfl, rfl, rfl⟩

/-! C3: the claim says ValidateParameters rejects wrong-kind values; in fact
a failed type assertion silently skips the check (see C10), so only in-range
checks on correctly-typed ints can fail. The 400-before-spawn half of the
claim does hold. -/

/-- C3 counterexample: a wrong-kind `array_size` (a string) passes
validation, the handler answers 200 and spawns the goroutine, and broadcasts
are produced - refuting "ValidateParameters returns a ValidationError
whenever a declared parameter's value is ... of the wrong kind". -/
theorem C3_counterexample :
    BubbleSort.ValidateParameters [("array_size", GoVal.vStr "ten")] = none ∧
    (ExecuteAlgorithm coreRegistry "bubble_sort"
      ⟨[("array_size", GoVal.vStr "ten")], none⟩ 42).StatusCode = 200 ∧
    (ExecuteAlgorithm coreRegistry "bubble_sort"
      ⟨[("array_size", GoVal.vStr "ten")], none⟩ 42).Spawned = true ∧
    (ExecuteAlgorithm coreRegistry "bubble_sort"
      ⟨[("array_size", GoVal.vStr "ten")], none⟩ 42).Broadcasts.isEmpty
      = false :=
  ⟨rfl, rfl, rfl, rfl⟩

/-- C3 as amended: ValidateParameters returns a validation error whenever a
declared int parameter (`array_size`) is present with an int value outside
its declared range (wrong-kind and absent values are silently accepted, see
C10); and whenever ValidateParameters returns an error the handler responds
400 before any goroutine is spawned: no ExecutionContext is created, nothing
is broadcast. -/
theorem C3_validation_rejects_out_of_range :
    (∀ (parameters : Params) (n : Int),
      getIntParam parameters "array_size" = some n → (n < 3 ∨ n > 100) →
        BubbleSort.ValidateParameters parameters =
          some "array_size must be between 3 and 100" ∧
        BinarySearch.ValidateParameters parameters =
          some "array_size must be between 3 and 100") ∧
    (∀ (registry : Registry) (algorithmID : String) (request : Request)
        (nowUnixNano : Int) (algorithm : AlgorithmExecutor) (err : String),
      registry.GetAlgorithm algorithmID = some algorithm →
      algorithm.ValidateParameters request.Parameters = some err →
        ExecuteAlgorithm registry algorithmID request nowUnixNano =
          { StatusCode := 400,
            ErrorText := some ("Invalid parameters: " ++ err),
            ResponseBody := [], Spawned := false, Execution := none,
            StatusWrites := [], Broadcasts := [] }) := by
  constructor
  · intro parameters n h hrange
    constructor
    · simp [BubbleSort.ValidateParameters, h, if_pos hrange]
    · simp [BinarySearch.ValidateParameters, h, if_pos hrange]
  · intro registry algorithmID request now algorithm err h1 h2
    unfold ExecuteAlgorithm
    simp only [h1]
    rw [h2]

/-- Witness for C3 as amended: `array_size = 101` is rejected and the
handler answers 400 with nothing spawned or broadcast. -/
theorem C3_witness :
    getIntParam [("array_size", GoVal.vInt 101)] "array_size" = some 101 ∧
    BubbleSort.ValidateParameters [("array_size", GoVal.vInt 101)] =
      some "array_size must be between 3 and 100" ∧
    (ExecuteAlgorithm coreRegistry "bubble_sort"
        ⟨[("array_size", GoVal.vInt 101)], none⟩ 7).StatusCode = 400 ∧
    (ExecuteAlgorithm coreRegistry "bubble_sort"
        ⟨[("array_size", GoVal.vInt 101)], none⟩ 7).Broadcasts = [] := by
  refine ⟨rfl,
    (C3_validation_rejects_out_of_range.1 [("array_size", GoVal.vInt 101)]
      101 rfl (by decide)).1, ?_, ?_⟩ <;>
    rw [C3_validation_rejects_out_of_range.2 coreRegistry "bubble_sort"
      ⟨[("array_size", GoVal.vInt 101)], none⟩ 7 BubbleSort.executor
      "array_size must be between 3 and 100" rfl rfl]

/-! Adjacent-swap lemmas used for bubble-sort correctness (C5). -/

lemma length_take_eq (m : Nat) (l : List Int) (h : m ≤ l.length) :
    (l.take m).length = m := by
  simp [List.length_take, Nat.min_eq_left h]

lemma eq_take_cons_cons_drop :
    ∀ (j : Nat) (l : List Int), j + 1 < l.length →
      l = l.take j ++ l.getD j 0 :: l.getD (j + 1) 0 :: l.drop (j + 2)
  | 0, [], h => by simp at h
  | 0, [a], h => by simp at h
  | 0, a :: b :: t, _ => rfl
  | j + 1, [], h => by simp at h
  | j + 1, x :: xs, h => by
    have ih := eq_take_cons_cons_drop j xs (by simpa using h)
    simp only [List.take_succ_cons, List.getD_cons_succ, List.drop_succ_cons,
      List.cons_append]
    exact congrArg (x :: ·) ih

lemma swapAssign_adj_eq :
    ∀ (j : Nat) (l : List Int), j + 1 < l.length →
      swapAssign l j (j + 1) =
        l.take j ++ l.getD (j + 1) 0 :: l.getD j 0 :: l.drop (j + 2)
  | 0, [], h => by simp at h
  | 0, [a], h => by simp at h
  | 0, a :: b :: t, _ => rfl
  | j + 1, [], h => by simp at h
  | j + 1, x :: xs, h => by
    have ih := swapAssign_adj_eq j xs (by simpa using h)
    simp only [swapAssign, List.getD_cons_succ, List.set_cons_succ,
      List.take_succ_cons, List.drop_succ_cons, List.cons_append] at ih ⊢
    exact congrArg (x :: ·) ih

lemma swapAssign_adj_perm (j : Nat) (l : List Int) (h : j + 1 < l.length) :
    List.Perm (swapAssign l j (j + 1)) l := by
  rw [swapAssign_adj_eq j l h]
  conv_rhs => rw [eq_take_cons_cons_drop j l h]
  exact List.Perm.append_left _ (List.Perm.swap _ _ _)

lemma swapAssign_adj_drop (j : Nat) (l : List Int) (_h : j + 1 < l.length)
    (m : Nat) (hm : j + 2 ≤ m) :
    (swapAssign l j (j + 1)).drop m = l.drop m := by
  apply List.ext_getElem?
  intro k
  rw [List.getElem?_drop, List.getElem?_drop]
  simp only [swapAssign]
  rw [List.getElem?_set_ne (by omega), List.getElem?_set_ne (by omega)]

lemma swapAssign_adj_getD_left (j : Nat) (l : List Int) (h : j + 1 < l.length) :
    (swapAssign l j (j + 1)).getD j 0 = l.getD (j + 1) 0 := by
  rw [swapAssign_adj_eq j l h]
  rw [List.getD_eq_getElem?_getD, List.getElem?_append_right
    (by rw [length_take_eq j l (by omega)])]
  rw [length_take_eq j l (by omega)]
  simp

lemma swapAssign_adj_getD_right (j : Nat) (l : List Int)
    (h : j + 1 < l.length) :
    (swapAssign l j (j + 1)).getD (j + 1) 0 = l.getD j 0 := by
  rw [swapAssign_adj_eq j l h]
  rw [List.getD_eq_getElem?_getD, List.getElem?_append_right
    (by rw [length_take_eq j l (by omega)]; omega)]
  rw [length_take_eq j l (by omega)]
  have hidx : j + 1 - j = 1 := by omega
  rw [hidx]
  simp

lemma swapAssign_getD_other (i j k : Nat) (l : List Int) (h1 : k ≠ i)
    (h2 : k ≠ j) :
    (swapAssign l i j).getD k 0 = l.getD k 0 := by
  simp only [swapAssign, List.getD_eq_getElem?_getD]
  rw [List.getElem?_set_ne (by omega), List.getElem?_set_ne (by omega)]

/-! Invariants of the bubble-sort inner loop (bubble_sort.go lines 111-156),
proved by structural induction on the remaining iteration count. -/

lemma bubbleInner_swapped_true (n i : Nat) (sc : Bool) :
    ∀ (count j : Nat) (s : BubbleSort.LoopState),
      (BubbleSort.innerLoop n i sc count j s true).2 = true
  | 0, _, _ => rfl
  | count + 1, j, s => by
    unfold BubbleSort.innerLoop
    by_cases hj : j < n - i - 1
    · rw [if_pos hj]
      dsimp only
      split <;> split <;>
        exact bubbleInner_swapped_true n i sc count (j + 1) _
    · rw [if_neg hj]

lemma bubbleInner_basic (n i : Nat) (sc : Bool) :
    ∀ (count j : Nat) (s : BubbleSort.LoopState) (swapped : Bool),
      s.arr.length = n →
      (BubbleSort.innerLoop n i sc count j s swapped).1.arr.length = n ∧
      List.Perm ((BubbleSort.innerLoop n i sc count j s swapped).1.arr) s.arr ∧
      (BubbleSort.innerLoop n i sc count j s swapped).1.arr.drop (n - i) =
        s.arr.drop (n - i)
  | 0, _, _, _, hlen => ⟨hlen, List.Perm.refl _, rfl⟩
  | count + 1, j, s, swapped, hlen => by
    unfold BubbleSort.innerLoop
    by_cases hj : j < n - i - 1
    · rw [if_pos hj]
      dsimp only
      have hb : j + 1 < s.arr.length := by omega
      have hm : j + 2 ≤ n - i := by omega
      split <;> split
      all_goals
        first
        | exact bubbleInner_basic n i sc count (j + 1) _ _ hlen
        | (refine (fun r =>
              ⟨r.1, List.Perm.trans r.2.1 (swapAssign_adj_perm j s.arr hb),
                Eq.trans r.2.2 (swapAssign_adj_drop j s.arr hb (n - i) hm)⟩)
            (bubbleInner_basic n i sc count (j + 1) _ true ?_)
           simp [length_swapAssign, hlen])
    · rw [if_neg hj]
      exact ⟨hlen, List.Perm.refl _, rfl⟩

lemma bubbleInner_noswap (n i : Nat) (sc : Bool) :
    ∀ (count j : Nat) (s : BubbleSort.LoopState) (swapped : Bool),
      n - i - 1 ≤ j + count →
      ((BubbleSort.innerLoop n i sc count j s swapped).2 = false →
        (BubbleSort.innerLoop n i sc count j s swapped).1.arr = s.arr ∧
        swapped = false ∧
        ∀ k, j ≤ k → k < n - i - 1 →
          s.arr.getD k 0 ≤ s.arr.getD (k + 1) 0)
  | 0, j, s, swapped, hcount => by
    intro hfalse
    exact ⟨rfl, hfalse, fun k hk1 hk2 => absurd (by omega : k < j) (by omega)⟩
  | count + 1, j, s, swapped, hcount => by
    unfold BubbleSort.innerLoop
    by_cases hj : j < n - i - 1
    · rw [if_pos hj]
      dsimp only
      split <;> split
      all_goals intro hfalse
      all_goals
        first
        | (rw [bubbleInner_swapped_true n i sc count (j + 1) _] at hfalse
           exact absurd hfalse (by decide))
        | (have hle : s.arr.getD j 0 ≤ s.arr.getD (j + 1) 0 :=
             not_lt.mp (by assumption)
           obtain ⟨h1, h2, h3⟩ :=
             bubbleInner_noswap n i sc count (j + 1) _ swapped (by omega) hfalse
           refine ⟨h1, h2, fun k hk1 hk2 => ?_⟩
           rcases Nat.eq_or_lt_of_le hk1 with heq | hlt
           · exact heq ▸ hle
           · exact h3 k hlt hk2)
    · rw [if_neg hj]
      intro hfalse
      exact ⟨rfl, hfalse, fun k hk1 hk2 => absurd hk2 (by omega)⟩

lemma bubbleInner_max (n i : Nat) (sc : Bool) :
    ∀ (count j : Nat) (s : BubbleSort.LoopState) (swapped : Bool),
      s.arr.length = n → j + count = n - i - 1 →
      (∀ k, k ≤ j → s.arr.getD k 0 ≤ s.arr.getD j 0) →
      ∀ k, k ≤ n - i - 1 →
        (BubbleSort.innerLoop n i sc count j s swapped).1.arr.getD k 0 ≤
        (BubbleSort.innerLoop n i sc count j s swapped).1.arr.getD
          (n - i - 1) 0
  | 0, j, s, swapped, hlen, hcount, H => by
    intro k hk
    have hj : j = n - i - 1 := by omega
    rw [← hj] at hk ⊢
    exact H k hk
  | count + 1, j, s, swapped, hlen, hcount, H => by
    intro k hk
    unfold BubbleSort.innerLoop
    by_cases hj : j < n - i - 1
    · rw [if_pos hj]
      dsimp only
      have hb : j + 1 < s.arr.length := by omega
      split <;> split
      all_goals
        first
        | (rename_i hcmp
           have hcmp' : s.arr.getD (j + 1) 0 < s.arr.getD j 0 := hcmp
           refine bubbleInner_max n i sc count (j + 1) _ true
             (by simp [length_swapAssign, hlen]) (by omega) ?_ k hk
           intro m hm
           show (swapAssign s.arr j (j + 1)).getD m 0 ≤
             (swapAssign s.arr j (j + 1)).getD (j + 1) 0
           rw [swapAssign_adj_getD_right j s.arr hb]
           rcases Nat.lt_or_ge m j with hlt2 | hge2
           · rw [swapAssign_getD_other j (j + 1) m s.arr (by omega) (by omega)]
             exact H m (by omega)
           · rcases Nat.eq_or_lt_of_le hge2 with heq | hgt
             · subst heq
               rw [swapAssign_adj_getD_left j s.arr hb]
               exact le_of_lt hcmp'
             · have hmj : m = j + 1 := by omega
               subst hmj
               rw [swapAssign_adj_getD_right j s.arr hb])
        | (rename_i hcmp
           have hle : s.arr.getD j 0 ≤ s.arr.getD (j + 1) 0 := not_lt.mp hcmp
           refine bubbleInner_max n i sc count (j + 1) _ swapped ?_
             (by omega) ?_ k hk
           · exact hlen
           · intro m hm
             show s.arr.getD m 0 ≤ s.arr.getD (j + 1) 0
             rcases Nat.lt_or_ge m (j + 1) with hlt | hge
             · exact le_trans (H m (by omega)) hle
             · have hmj : m = j + 1 := by omega
               subst hmj
               exact le_refl _)
    · omega

/-! Sortedness-assembly helpers for the bubble-sort outer loop. -/

lemma sorted_of_take_drop_one (l : List Int)
    (hdrop : (l.drop 1).Sorted (· ≤ ·))
    (hbound : ∀ x ∈ l.take 1, ∀ y ∈ l.drop 1, x ≤ y) :
    l.Sorted (· ≤ ·) := by
  cases l with
  | nil => exact List.sorted_nil
  | cons a t =>
    exact List.sorted_cons.mpr ⟨fun b hb => hbound a (by simp) b hb, hdrop⟩

lemma adjacent_chain (l : List Int) (m : Nat)
    (hadj : ∀ k, k + 1 < m → l.getD k 0 ≤ l.getD (k + 1) 0) :
    ∀ a b, a ≤ b → b < m → l.getD a 0 ≤ l.getD b 0 := by
  have key : ∀ d a, a + d < m → l.getD a 0 ≤ l.getD (a + d) 0 := by
    intro d
    induction d with
    | zero => intro a _; exact le_refl _
    | succ d ih =>
      intro a ha
      have h1 := ih a (by omega)
      have h2 := hadj (a + d) (by omega)
      calc l.getD a 0 ≤ l.getD (a + d) 0 := h1
        _ ≤ l.getD (a + d + 1) 0 := h2
  intro a b hab hbm
  have := key (b - a) a (by omega)
  have heq : a + (b - a) = b := by omega
  rwa [heq] at this

lemma sorted_of_prefix_adjacent (l : List Int) (m : Nat)
    (hadj : ∀ k, k + 1 < m → l.getD k 0 ≤ l.getD (k + 1) 0)
    (hdrop : (l.drop m).Sorted (· ≤ ·))
    (hbound : ∀ x ∈ l.take m, ∀ y ∈ l.drop m, x ≤ y) :
    l.Sorted (· ≤ ·) := by
  rw [List.Sorted, List.pairwise_iff_getElem]
  intro a b ha hb hab
  rcases Nat.lt_or_ge b m with hbm | hbm
  · have h := adjacent_chain l m hadj a b (by omega) hbm
    rwa [List.getD_eq_getElem l 0 ha, List.getD_eq_getElem l 0 hb] at h
  · have hyb : l[b] ∈ l.drop m := by
      rw [List.mem_drop_iff_getElem]
      exact ⟨b - m, by omega, by congr 1; omega⟩
    rcases Nat.lt_or_ge a m with ham | ham
    · have hxa : l[a] ∈ l.take m := by
        rw [List.mem_take_iff_getElem]
        exact ⟨a, by omega, rfl⟩
      exact hbound _ hxa _ hyb
    · rw [List.Sorted, List.pairwise_iff_getElem] at hdrop
      have hlen : (l.drop m).length = l.length - m := by simp
      have h := hdrop (a - m) (b - m) (by omega) (by omega) (by omega)
      rw [List.getElem_drop, List.getElem_drop] at h
      have e1 : m + (a - m) = a := by omega
      have e2 : m + (b - m) = b := by omega
      simp only [e1, e2] at h
      exact h

lemma take_perm_of_perm_drop_eq (l' l : List Int) (m : Nat)
    (hperm : List.Perm l' l) (hdrop : l'.drop m = l.drop m) :
    List.Perm (l'.take m) (l.take m) := by
  have h1 := List.take_append_drop m l'
  have h2 := List.take_append_drop m l
  rw [← h1, ← h2, hdrop] at hperm
  exact (List.perm_append_right_iff (l.drop m)).mp hperm

lemma mem_take_of_le (l : List Int) (m m' : Nat) (hm : m ≤ m') (x : Int)
    (hx : x ∈ l.take m) : x ∈ l.take m' := by
  rw [List.mem_take_iff_getElem] at hx ⊢
  obtain ⟨k, hk, he⟩ := hx
  exact ⟨k, by omega, he⟩

/-! The bubble-sort outer loop (bubble_sort.go lines 94-175) sorts: at the
start of iteration `i` the last `i` positions hold the `i` largest elements
in order, and a pass without swaps means the prefix is already sorted. -/

lemma bubbleOuter_spec (n : Nat) (sc : Bool) :
    ∀ (count i : Nat) (s : BubbleSort.LoopState),
      s.arr.length = n → count + i = n - 1 →
      (s.arr.drop (n - i)).Sorted (· ≤ ·) →
      (∀ x ∈ s.arr.take (n - i), ∀ y ∈ s.arr.drop (n - i), x ≤ y) →
      List.Perm ((BubbleSort.outerLoop n sc count i s).arr) s.arr ∧
      (BubbleSort.outerLoop n sc count i s).arr.Sorted (· ≤ ·)
  | 0, i, s, hlen, hcount, hdrop, hbound => by
    refine ⟨List.Perm.refl _, ?_⟩
    show s.arr.Sorted (· ≤ ·)
    rcases Nat.lt_or_ge (n - i) 1 with h0 | h1
    · have h00 : n - i = 0 := by omega
      rw [h00] at hdrop
      exact hdrop
    · have h11 : n - i = 1 := by omega
      rw [h11] at hdrop hbound
      exact sorted_of_take_drop_one s.arr hdrop hbound
  | count + 1, i, s, hlen, hcount, hdrop, hbound => by
    unfold BubbleSort.outerLoop
    have hi : i < n - 1 := by omega
    rw [if_pos hi]
    dsimp only
    set s1 := BubbleSort.outerStepState s i with hs1
    set r := BubbleSort.innerLoop n i sc (n - i - 1) 0 s1 false with hr
    have hs1arr : s1.arr = s.arr := rfl
    have hlen1 : s1.arr.length = n := hlen
    split
    · -- early termination: the pass made no swap
      rename_i hns
      have hfalse : r.2 = false := by
        rcases hb2 : r.2 with _ | _
        · rfl
        · rw [hb2] at hns; exact absurd hns (by decide)
      obtain ⟨h1, h2, h3⟩ := bubbleInner_noswap n i sc (n - i - 1) 0 s1 false
        (by omega) (by rw [← hr]; exact hfalse)
      rw [← hr] at h1
      rw [hs1arr] at h1 h3
      have hsorted : s.arr.Sorted (· ≤ ·) := by
        refine sorted_of_prefix_adjacent s.arr (n - i) ?_ hdrop hbound
        intro k hk
        exact h3 k (Nat.zero_le _) (by omega)
      refine ⟨?_, ?_⟩
      · show List.Perm r.1.arr s.arr
        rw [h1]
      · show r.1.arr.Sorted (· ≤ ·)
        rw [h1]
        exact hsorted
    · -- the pass swapped: continue with i + 1
      obtain ⟨hl1, hp1, hd1⟩ := bubbleInner_basic n i sc (n - i - 1) 0 s1 false hlen1
      rw [← hr] at hl1 hp1 hd1
      rw [hs1arr] at hp1 hd1
      have hmax := bubbleInner_max n i sc (n - i - 1) 0 s1 false hlen1 (by omega)
        (fun k hk => by
          have hk0 : k = 0 := by omega
          subst hk0
          exact le_refl _)
      rw [← hr] at hmax
      have hm1 : n - (i + 1) = n - i - 1 := by omega
      have hm1len : n - i - 1 < r.1.arr.length := by omega
      have hdec : r.1.arr.drop (n - i - 1) =
          r.1.arr.getD (n - i - 1) 0 :: r.1.arr.drop (n - i) := by
        rw [List.drop_eq_getElem_cons hm1len]
        have he : n - i - 1 + 1 = n - i := by omega
        rw [he, List.getD_eq_getElem _ 0 hm1len]
      have htake := take_perm_of_perm_drop_eq _ _ (n - i) hp1 hd1
      have hmem : r.1.arr.getD (n - i - 1) 0 ∈ s.arr.take (n - i) := by
        refine htake.mem_iff.mp ?_
        rw [List.mem_take_iff_getElem]
        exact ⟨n - i - 1, by omega, (List.getD_eq_getElem _ 0 hm1len).symm⟩
      have hdrop' : (r.1.arr.drop (n - (i + 1))).Sorted (· ≤ ·) := by
        rw [hm1, hdec, hd1]
        refine List.sorted_cons.mpr ⟨?_, hdrop⟩
        intro b hb
        exact hbound _ hmem b hb
      have hbound' : ∀ x ∈ r.1.arr.take (n - (i + 1)),
          ∀ y ∈ r.1.arr.drop (n - (i + 1)), x ≤ y := by
        rw [hm1, hdec]
        intro x hx y hy
        rcases List.mem_cons.mp hy with hy1 | hy2
        · subst hy1
          rw [List.mem_take_iff_getElem] at hx
          obtain ⟨k, hk, hke⟩ := hx
          have hmk := hmax k (by omega)
          rw [List.getD_eq_getElem _ 0 (by omega : k < r.1.arr.length)] at hmk
          rw [← hke]
          exact hmk
        · have hx' : x ∈ s.arr.take (n - i) :=
            htake.mem_iff.mp (mem_take_of_le _ (n - i - 1) (n - i) (by omega) x hx)
          have hy' : y ∈ s.arr.drop (n - i) := by
            rw [← hd1]
            exact hy2
          exact hbound x hx' y hy'
      have ih := bubbleOuter_spec n sc count (i + 1) r.1 hl1 (by omega) hdrop' hbound'
      exact ⟨ih.1.trans hp1, ih.2⟩

/-- C5: for every working array the Go code selects (a provided `int` slice,
or the generated array - in particular `array_size = 5` on the fixed
deterministic generator), BubbleSort.Execute returns without error an array
that is non-decreasing and a permutation of that working array, and the last
step handed to the step callback has action "complete". -/
theorem C5_bubble_sort_correct (input : Option GoVal) (parameters : Params)
    (l : List Int) (hchoose : chooseArray input parameters = .ok l) :
    (∃ l', (BubbleSort.Execute input parameters).result =
        .ok (GoOutput.intArr l') ∧
      l'.Sorted (· ≤ ·) ∧ List.Perm l' l) ∧
    (BubbleSort.Execute input parameters).steps.getLast?.map
      (fun st => st.Action) = some "complete" := by
  unfold BubbleSort.Execute
  rw [hchoose]
  dsimp only
  have spec := bubbleOuter_spec l.length
    ((getBoolParam parameters "show_comparisons").getD true) (l.length - 1) 0
    ⟨l, 0, 0, 1, [BubbleSort.initializeStep l
      ((getBoolParam parameters "show_comparisons").getD true)]⟩
    rfl (by omega) (by simp) (by simp)
  constructor
  · exact ⟨_, rfl, spec.2, spec.1⟩
  · rw [List.getLast?_concat]
    rfl

/-- Witness for C5: the spec's Scenario A, `array_size = 5` on the
generator. -/
theorem C5_witness :
    chooseArray none [("array_size", GoVal.vInt 5)] = .ok [1, 2, 3, 4, 5] ∧
    (∃ l', (BubbleSort.Execute none
        [("array_size", GoVal.vInt 5)]).result = .ok (GoOutput.intArr l') ∧
      l'.Sorted (· ≤ ·) ∧ List.Perm l' [1, 2, 3, 4, 5]) ∧
    (BubbleSort.Execute none
        [("array_size", GoVal.vInt 5)]).steps.getLast?.map
      (fun st => st.Action) = some "complete" :=
  ⟨rfl,
    (C5_bubble_sort_correct none [("array_size", GoVal.vInt 5)]
      [1, 2, 3, 4, 5] rfl).1,
    (C5_bubble_sort_correct none [("array_size", GoVal.vInt 5)]
      [1, 2, 3, 4, 5] rfl).2⟩

/-! C6: binary search on a target that is absent from the working array. -/

lemma searchLoop_notFound (arr : List Int) (target : Int)
    (habsent : target ∉ arr) :
    ∀ (fuel : Nat) (left right : Int) (comparisons : Nat)
      (steps : List ExecutionStep),
      0 ≤ left → right < (arr.length : Int) →
      (right - left + 1).toNat ≤ fuel →
      ∃ steps' comparisons',
        BinarySearch.searchLoop arr target fuel left right comparisons steps =
          .notFound steps' comparisons'
  | 0, left, right, comparisons, steps => by
    intro h1 h2 h3
    exact ⟨steps, comparisons, rfl⟩
  | fuel + 1, left, right, comparisons, steps => by
    intro h1 h2 h3
    unfold BinarySearch.searchLoop
    by_cases hlr : left ≤ right
    · rw [if_pos hlr]
      dsimp only
      have hd0 : (0 : Int) ≤ right - left := by omega
      have hdiv0 : (0 : Int) ≤ (right - left) / 2 :=
        Int.ediv_nonneg hd0 (by norm_num)
      have hdivle : (right - left) / 2 ≤ right - left := Int.ediv_le_self _ hd0
      have hmidlt : (left + (right - left) / 2).toNat < arr.length := by omega
      have hne : arr.getD (left + (right - left) / 2).toNat 0 ≠ target := by
        intro he
        apply habsent
        rw [← he, List.getD_eq_getElem arr 0 hmidlt]
        exact List.getElem_mem _
      rw [if_neg hne]
      by_cases hlt : arr.getD (left + (right - left) / 2).toNat 0 < target
      · rw [if_pos hlt]
        exact searchLoop_notFound arr target habsent fuel _ right _ _
          (by omega) h2 (by omega)
      · rw [if_neg hlt]
        exact searchLoop_notFound arr target habsent fuel left _ _ _
          h1 (by omega) (by omega)
    · rw [if_neg hlr]
      exact ⟨steps, comparisons, rfl⟩

/-- C6: for every working array the code selects and every target value
absent from it, BinarySearch.Execute (which sorts the array before
searching) returns without error the result map with `found = false`,
`index = -1` and `value = null`. -/
theorem C6_binary_search_not_found (input : Option GoVal)
    (parameters : Params) (l : List Int) (target : Int)
    (hchoose : chooseArray input parameters = .ok l)
    (htarget : target = (getIntParam parameters "target").getD 5)
    (habsent : target ∉ l) :
    ∃ c : Nat, (BinarySearch.Execute input parameters).result =
      .ok (GoOutput.strMap
        [("found", GoVal.vBool false), ("index", GoVal.vInt (-1)),
         ("value", GoVal.vNull), ("comparisons", GoVal.vInt (c : Int))]) := by
  unfold BinarySearch.Execute
  rw [hchoose]
  dsimp only
  rw [← htarget]
  have habs2 : target ∉ BinarySearch.sortInts l := by
    intro hmem
    exact habsent ((List.perm_insertionSort (· ≤ ·) l).mem_iff.mp hmem)
  obtain ⟨steps', c', heq⟩ := searchLoop_notFound (BinarySearch.sortInts l)
    target habs2 (BinarySearch.sortInts l).length 0
    (((BinarySearch.sortInts l).length : Int) - 1) 0
    [BinarySearch.initializeStep (BinarySearch.sortInts l) target]
    (by omega) (by omega) (by omega)
  rw [heq]
  exact ⟨c', rfl⟩

/-- Witness for C6: searching `[5, 3, 8]` for the absent target 4. -/
theorem C6_witness :
    chooseArray (some (GoVal.vIntArr [5, 3, 8])) [("target", GoVal.vInt 4)] =
      .ok [5, 3, 8] ∧
    (4 : Int) ∉ ([5, 3, 8] : List Int) ∧
    ∃ c : Nat, (BinarySearch.Execute (some (GoVal.vIntArr [5, 3, 8]))
        [("target", GoVal.vInt 4)]).result =
      .ok (GoOutput.strMap
        [("found", GoVal.vBool false), ("index", GoVal.vInt (-1)),
         ("value", GoVal.vNull), ("comparisons", GoVal.vInt (c : Int))]) :=
  ⟨rfl, by decide,
    C6_binary_search_not_found (some (GoVal.vIntArr [5, 3, 8]))
      [("target", GoVal.vInt 4)] [5, 3, 8] 4 rfl rfl (by decide)⟩

/-! C8 as amended: bubble sort does emit strictly increasing step numbers
(the counter is emitted and then incremented at every callback site). -/

lemma stepChain_append (steps : List ExecutionStep) (counter : Nat)
    (st : ExecutionStep)
    (h1 : List.Chain' (· < ·) (stepNumbers steps))
    (h2 : ∀ x ∈ stepNumbers steps, x < (counter : Int))
    (hst : st.StepNumber = (counter : Int)) :
    List.Chain' (· < ·) (stepNumbers (steps ++ [st])) ∧
    ∀ x ∈ stepNumbers (steps ++ [st]), x < ((counter + 1 : Nat) : Int) := by
  have hmap : stepNumbers (steps ++ [st]) =
      stepNumbers steps ++ [st.StepNumber] := by
    simp [stepNumbers]
  constructor
  · rw [hmap]
    refine List.chain'_append.mpr ⟨h1, List.chain'_singleton _, ?_⟩
    intro x hx y hy
    simp only [List.head?_cons, Option.mem_def, Option.some.injEq] at hy
    subst hy
    obtain ⟨hne, hlast⟩ := List.mem_getLast?_eq_getLast hx
    rw [hst, hlast]
    exact h2 _ (List.getLast_mem hne)
  · intro x hx
    rw [hmap, List.mem_append] at hx
    rcases hx with hx | hx
    · have hb := h2 x hx
      push_cast
      push_cast at hb
      omega
    · simp only [List.mem_singleton] at hx
      subst hx
      rw [hst]
      push_cast
      omega

lemma bubbleInner_stepChain (n i : Nat) (sc : Bool) :
    ∀ (count j : Nat) (s : BubbleSort.LoopState) (swapped : Bool),
      List.Chain' (· < ·) (stepNumbers s.steps) →
      (∀ x ∈ stepNumbers s.steps, x < (s.stepNumber : Int)) →
      List.Chain' (· < ·)
        (stepNumbers (BubbleSort.innerLoop n i sc count j s swapped).1.steps) ∧
      ∀ x ∈ stepNumbers (BubbleSort.innerLoop n i sc count j s swapped).1.steps,
        x < ((BubbleSort.innerLoop n i sc count j s swapped).1.stepNumber : Int)
  | 0, _, _, _, h1, h2 => ⟨h1, h2⟩
  | count + 1, j, s, swapped, h1, h2 => by
    unfold BubbleSort.innerLoop
    by_cases hj : j < n - i - 1
    · rw [if_pos hj]
      dsimp only
      split <;> split
      · -- compare step emitted, then swap step
        have A1 := stepChain_append s.steps s.stepNumber
          (BubbleSort.compareStep { s with comparisons := s.comparisons + 1 } i j)
          h1 h2 rfl
        have A2 := stepChain_append
          (s.steps ++
            [BubbleSort.compareStep { s with comparisons := s.comparisons + 1 } i j])
          (s.stepNumber + 1)
          (BubbleSort.swapStep
            { arr := swapAssign s.arr j (j + 1),
              comparisons := s.comparisons + 1, swaps := s.swaps + 1,
              stepNumber := s.stepNumber + 1,
              steps := s.steps ++
                [BubbleSort.compareStep
                  { s with comparisons := s.comparisons + 1 } i j] } i j)
          A1.1 A1.2 rfl
        exact bubbleInner_stepChain n i sc count (j + 1) _ true A2.1 A2.2
      · -- compare step only
        have A1 := stepChain_append s.steps s.stepNumber
          (BubbleSort.compareStep { s with comparisons := s.comparisons + 1 } i j)
          h1 h2 rfl
        exact bubbleInner_stepChain n i sc count (j + 1) _ swapped A1.1 A1.2
      · -- swap step only
        have A1 := stepChain_append s.steps s.stepNumber
          (BubbleSort.swapStep
            { arr := swapAssign s.arr j (j + 1),
              comparisons := s.comparisons + 1, swaps := s.swaps + 1,
              stepNumber := s.stepNumber, steps := s.steps } i j)
          h1 h2 rfl
        exact bubbleInner_stepChain n i sc count (j + 1) _ true A1.1 A1.2
      · -- no step emitted
        exact bubbleInner_stepChain n i sc count (j + 1) _ swapped h1 h2
    · rw [if_neg hj]
      exact ⟨h1, h2⟩

lemma bubbleOuter_stepChain (n : Nat) (sc : Bool) :
    ∀ (count i : Nat) (s : BubbleSort.LoopState),
      List.Chain' (· < ·) (stepNumbers s.steps) →
      (∀ x ∈ stepNumbers s.steps, x < (s.stepNumber : Int)) →
      List.Chain' (· < ·)
        (stepNumbers (BubbleSort.outerLoop n sc count i s).steps) ∧
      ∀ x ∈ stepNumbers (BubbleSort.outerLoop n sc count i s).steps,
        x < ((BubbleSort.outerLoop n sc count i s).stepNumber : Int)
  | 0, _, _, h1, h2 => ⟨h1, h2⟩
  | count + 1, i, s, h1, h2 => by
    unfold BubbleSort.outerLoop
    by_cases hi : i < n - 1
    · rw [if_pos hi]
      dsimp only
      have A1 := stepChain_append s.steps s.stepNumber
        (BubbleSort.outerStep s i) h1 h2 rfl
      have I := bubbleInner_stepChain n i sc (n - i - 1) 0
        (BubbleSort.outerStepState s i) false A1.1 A1.2
      split
      · exact stepChain_append
          (BubbleSort.innerLoop n i sc (n - i - 1) 0
            (BubbleSort.outerStepState s i) false).1.steps
          (BubbleSort.innerLoop n i sc (n - i - 1) 0
            (BubbleSort.outerStepState s i) false).1.stepNumber
          (BubbleSort.earlyTerminationStep
            (BubbleSort.innerLoop n i sc (n - i - 1) 0
              (BubbleSort.outerStepState s i) false).1 i)
          I.1 I.2 rfl
      · exact bubbleOuter_stepChain n sc count (i + 1) _ I.1 I.2
    · rw [if_neg hi]
      exact ⟨h1, h2⟩

/-- C8 as amended: BubbleSort.Execute emits its steps with strictly
increasing step numbers. -/
theorem C8_bubble_stepNumbers_increasing (input : Option GoVal)
    (parameters : Params) :
    List.Chain' (· < ·)
      (stepNumbers (BubbleSort.Execute input parameters).steps) := by
  unfold BubbleSort.Execute
  cases hchoose : chooseArray input parameters with
  | error e => exact List.chain'_nil
  | ok l =>
    dsimp only
    have h1 : List.Chain' (· < ·) (stepNumbers
        [BubbleSort.initializeStep l
          ((getBoolParam parameters "show_comparisons").getD true)]) :=
      List.chain'_singleton _
    have h2 : ∀ x ∈ stepNumbers
        [BubbleSort.initializeStep l
          ((getBoolParam parameters "show_comparisons").getD true)],
        x < ((1 : Nat) : Int) := by
      intro x hx
      simp only [stepNumbers, List.map_cons, List.map_nil,
        List.mem_singleton] at hx
      subst hx
      exact Int.zero_lt_one
    have O := bubbleOuter_stepChain l.length
      ((getBoolParam parameters "show_comparisons").getD true)
      (l.length - 1) 0
      ⟨l, 0, 0, 1, [BubbleSort.initializeStep l
        ((getBoolParam parameters "show_comparisons").getD true)]⟩ h1 h2
    refine (stepChain_append _ _
      (BubbleSort.completeStep
        (BubbleSort.outerLoop l.length
          ((getBoolParam parameters "show_comparisons").getD true)
          (l.length - 1) 0
          ⟨l, 0, 0, 1, [BubbleSort.initializeStep l
            ((getBoolParam parameters "show_comparisons").getD true)]⟩))
      O.1 O.2 rfl).1

/-! C8 counterexample: heap sort reuses the hard-coded step numbers 2 and -1,
so its emitted StepNumber sequence is not strictly increasing. -/

/-- C8 counterexample: on the input `[3, 1, 2]` heap sort emits the step
numbers `[0, 1, 2, -1, -1, -1, -1, -1]`, which are not strictly increasing -
refuting the claim for "every algorithm". -/
theorem C8_counterexample :
    stepNumbers (HeapSort.Execute (some (GoVal.vIntArr [3, 1, 2])) []).steps =
      [0, 1, 2, -1, -1, -1, -1, -1] ∧
    strictlyIncreasing
      (stepNumbers (HeapSort.Execute (some (GoVal.vIntArr [3, 1, 2])) []).steps)
      = false :=
  ⟨rfl, rfl⟩

end Algorthmia
